import Mathlib

/-!
# gcam-core: the scenario run loop and the forest production technology

A shallow embedding of

* `Scenario::run` and `Scenario::solve` (`containers/source/scenario.cpp`), and
* `ForestProductionTechnology` (`technologies/source/forest_production_technology.cpp`).

Collaborators whose code is not part of the sources at hand (`Modeltime`,
`Marketplace`, `World`, `Solver`, `ILandAllocator`, `Configuration`, the base
classes of the technology) appear either as parameters that supply the values
they return, or as entries of a call trace that records, in program order, the
calls made on them.
-/

/-- The getters of `Modeltime` used by the code, as a record of their values. -/
structure Modeltime where
  /-- The value of `getmaxper()`: the number of model periods. -/
  getmaxper : Int
  /-- The function `getper_to_yr(period)`. -/
  getper_to_yr : Int → Int
  /-- The function `getyr_to_per(year)`. -/
  getyr_to_per : Int → Int
  /-- The function `gettimestep(period)`. -/
  gettimestep : Int → Int
  /-- The value of `getStartYear()`. -/
  getStartYear : Int
  /-- The value of `getEndYear()`. -/
  getEndYear : Int

/-- A modeltime with four periods of fifteen years from 1975 on. -/
def exampleModeltime : Modeltime :=
  { getmaxper := 4
    getper_to_yr := fun p => 1975 + 15 * p
    getyr_to_per := fun y => (y - 1975).tdiv 15
    gettimestep := fun _ => 15
    getStartYear := 1975
    getEndYear := 2020 }

namespace Scenario

/-- One entry of the call trace of `Scenario::run`: a call on a collaborator
(marketplace, world, solver, debug output) or a line written to `cout`. -/
inductive Call where
  | openDebugXMLFile
  | printSectorDependencies
  | initPrices
  | toDebugXMLOpen
  /-- The period header written to `cout` and `logfile`: period and its year. -/
  | periodHeader (per year : Int)
  | nullDemands (per : Int)
  | nullSupplies (per : Int)
  | storeto_last (per : Int)
  | init_to_last (per : Int)
  | initCalc (per : Int)
  | calc (per : Int)
  /-- The call `solver->solve( period )`. -/
  | solverSolve (per : Int)
  /-- The line "All model periods solved correctly." -/
  | coutAllSolved
  /-- The line "The following model periods did not solve: " with the periods
  printed after it, in the order of the vector. -/
  | coutUnsolved (periods : List Int)
  | updateSummary (per : Int)
  | emiss_ind (per : Int)
  | toDebugXML (per : Int)
  | printGraphs (per : Int)
  | toDebugXMLClose
  | calculateEmissionsTotals
  | writeClimatData
  | CLIMAT
  | closeDebugStream
  /-- The call `world->completeInit()` of `Scenario::completeInit`. -/
  | worldCompleteInit
  deriving DecidableEq, Repr

/-- What `Scenario::run` reads from its surroundings. -/
structure RunEnv where
  /-- The `modeltime` pointer: `none` when no modeltime was parsed. -/
  modeltime : Option Modeltime
  /-- Whether the `world` pointer is set. -/
  hasWorld : Bool
  /-- The value returned by `solver->solve( period )`. -/
  solverSolve : Int → Bool
  /-- The configuration flag "PrintSectorDependencies" (default false). -/
  printSectorDependenciesFlag : Bool
  /-- The configuration flag "PrintDependencyGraphs". -/
  printDependencyGraphs : Bool
  /-- Whether the build has `__HAVE_FORTRAN__` set. -/
  haveFortran : Bool

/-- The members of `Scenario` that `run` and `solve` change, with the call
trace so far. -/
structure ScenarioState where
  unsolvedPeriods : List Int
  runCompleted : Bool
  trace : List Call
  deriving DecidableEq, Repr

/-- The state the constructor `Scenario::Scenario()` leaves: `runCompleted` is
false and the vector of unsolved periods is empty. -/
def ScenarioState.constructed : ScenarioState :=
  { unsolvedPeriods := [], runCompleted := false, trace := [] }

/-- Append calls to the trace. -/
def emit (s : ScenarioState) (cs : List Call) : ScenarioState :=
  { s with trace := s.trace ++ cs }

/-- A step of `run`: the result is `Except.error s` when a null `modeltime` or
`world` pointer is dereferenced in state `s` (execution does not continue),
and `Except.ok s` otherwise. -/
abbrev Step := Except ScenarioState ScenarioState

/-- A call through the `world` pointer. -/
def viaWorld (env : RunEnv) (s : ScenarioState) (c : Call) : Step :=
  if env.hasWorld then Except.ok (emit s [c]) else Except.error s

/-- The function `Scenario::solve( period )`. -/
def solve (env : RunEnv) (period : Int) (s : ScenarioState) : Step :=
  -- Solve the marketplace; a false return adds the period to the unsolved ones.
  let s1 := emit s [Call.solverSolve period]
  let s2 := if !env.solverSolve period then
      { s1 with unsolvedPeriods := s1.unsolvedPeriods ++ [period] }
    else s1
  -- If it was the last period print the ones that did not solve.
  match env.modeltime with
  | none => Except.error s2
  | some mt =>
    if mt.getmaxper - 1 = period then
      if (s2.unsolvedPeriods.length : Int) = 0 then
        Except.ok (emit s2 [Call.coutAllSolved])
      else
        Except.ok (emit s2 [Call.coutUnsolved s2.unsolvedPeriods])
    else Except.ok s2

/-- The body of the period loop of `Scenario::run`, for period `per`. -/
def runPeriod (env : RunEnv) (per : Int) (s : ScenarioState) : Step :=
  match env.modeltime with
  | none => Except.error s
  | some mt => do
    let s := emit s [Call.periodHeader per (mt.getper_to_yr per)]
    let s := emit s [Call.nullDemands per, Call.nullSupplies per,
                     Call.storeto_last per, Call.init_to_last per]
    let s ← viaWorld env s (Call.initCalc per)
    let s ← viaWorld env s (Call.calc per)
    let s ← solve env per s
    let s ← viaWorld env s (Call.updateSummary per)
    let s ← viaWorld env s (Call.emiss_ind per)
    let s ← viaWorld env s (Call.toDebugXML per)
    if env.printDependencyGraphs then viaWorld env s (Call.printGraphs per)
    else Except.ok s

/-- The loop `for ( per = ...; per < getmaxper(); per++ )` with `n` iterations
left to run from period `per`. -/
def runLoop (env : RunEnv) : Nat → Int → ScenarioState → Step
  | 0, _, s => Except.ok s
  | n + 1, per, s => do
    let s ← runPeriod env per s
    runLoop env n (per + 1) s

/-- The function `Scenario::run`. The loop starts at period 0 and runs while
`per < getmaxper()`, that is `getmaxper()` times (not at all when it is not
positive). -/
def run (env : RunEnv) (s : ScenarioState) : Step := do
  let s := emit s [Call.openDebugXMLFile]
  let s ← if env.printSectorDependenciesFlag then
      viaWorld env s Call.printSectorDependencies else Except.ok s
  let s := emit s [Call.initPrices, Call.toDebugXMLOpen]
  match env.modeltime with
  | none => Except.error s
  | some mt =>
    let s ← runLoop env mt.getmaxper.toNat 0 s
    -- Denote the run has been performed.
    let s := { s with runCompleted := true }
    let s := emit s [Call.toDebugXMLClose]
    let s ← viaWorld env s Call.calculateEmissionsTotals
    let s := emit s [Call.writeClimatData]
    let s := if env.haveFortran then emit s [Call.CLIMAT] else s
    Except.ok (emit s [Call.closeDebugStream])

/-- The periods `0, 1, ..., n - 1` as the loop variable takes them. -/
def periodsUpTo (n : Nat) : List Int := (List.range n).map (fun (k : Nat) => (k : Int))

/-- The calls of one pass of the loop body, given the vector of unsolved
periods as `solve` leaves it. -/
def periodCalls (env : RunEnv) (mt : Modeltime) (per : Int) (unsolved : List Int) :
    List Call :=
  [Call.periodHeader per (mt.getper_to_yr per),
   Call.nullDemands per, Call.nullSupplies per,
   Call.storeto_last per, Call.init_to_last per,
   Call.initCalc per, Call.calc per, Call.solverSolve per]
  ++ (if mt.getmaxper - 1 = per then
        (if unsolved = [] then [Call.coutAllSolved] else [Call.coutUnsolved unsolved])
      else [])
  ++ [Call.updateSummary per, Call.emiss_ind per, Call.toDebugXML per]
  ++ (if env.printDependencyGraphs then [Call.printGraphs per] else [])

/-- Whether a call is one of the nine per-period steps on the marketplace, the
world and the solver. -/
def Call.isPeriodStep : Call → Bool
  | Call.nullDemands _ => true
  | Call.nullSupplies _ => true
  | Call.storeto_last _ => true
  | Call.init_to_last _ => true
  | Call.initCalc _ => true
  | Call.calc _ => true
  | Call.solverSolve _ => true
  | Call.updateSummary _ => true
  | Call.emiss_ind _ => true
  | _ => false

/-- The period a per-period call is made for. -/
def Call.period? : Call → Option Int
  | Call.periodHeader p _ => some p
  | Call.nullDemands p => some p
  | Call.nullSupplies p => some p
  | Call.storeto_last p => some p
  | Call.init_to_last p => some p
  | Call.initCalc p => some p
  | Call.calc p => some p
  | Call.solverSolve p => some p
  | Call.updateSummary p => some p
  | Call.emiss_ind p => some p
  | Call.toDebugXML p => some p
  | Call.printGraphs p => some p
  | _ => none

/-- The per-period steps of a trace, in trace order. -/
def periodSteps (tr : List Call) : List Call := tr.filter Call.isPeriodStep

/-- The per-period steps of a trace made for period `p`, in trace order. -/
def periodStepsOf (p : Int) (tr : List Call) : List Call :=
  tr.filter (fun c => c.isPeriodStep && decide (c.period? = some p))

/-- The nine steps of period `per` in the order of the loop body. -/
def nineSteps (per : Int) : List Call :=
  [Call.nullDemands per, Call.nullSupplies per, Call.storeto_last per,
   Call.init_to_last per, Call.initCalc per, Call.calc per,
   Call.solverSolve per, Call.updateSummary per, Call.emiss_ind per]

/-- The vector of unsolved periods after `solve` ran for period `per`. -/
def unsolvedAfter (env : RunEnv) (unsolved : List Int) (per : Int) : List Int :=
  if env.solverSolve per then unsolved else unsolved ++ [per]

/-- The calls of `n` passes of the loop body from period `per` on. -/
def loopCalls (env : RunEnv) (mt : Modeltime) : List Int → Nat → Int → List Call
  | _, 0, _ => []
  | unsolved, n + 1, per =>
    periodCalls env mt per (unsolvedAfter env unsolved per)
      ++ loopCalls env mt (unsolvedAfter env unsolved per) n (per + 1)

/-- The unsolved periods after `n` passes of the loop body from period `per` on. -/
def loopUnsolved (env : RunEnv) : List Int → Nat → Int → List Int
  | unsolved, 0, _ => unsolved
  | unsolved, n + 1, per => loopUnsolved env (unsolvedAfter env unsolved per) n (per + 1)

/-- The calls of `Scenario::run` when world and modeltime are set. -/
def runCalls (env : RunEnv) (mt : Modeltime) (unsolved : List Int) : List Call :=
  [Call.openDebugXMLFile]
  ++ (if env.printSectorDependenciesFlag then [Call.printSectorDependencies] else [])
  ++ [Call.initPrices, Call.toDebugXMLOpen]
  ++ loopCalls env mt unsolved mt.getmaxper.toNat 0
  ++ [Call.toDebugXMLClose, Call.calculateEmissionsTotals, Call.writeClimatData]
  ++ (if env.haveFortran then [Call.CLIMAT] else [])
  ++ [Call.closeDebugStream]

/-- The periods `per, per + 1, ..., per + n - 1`. -/
def periodsFrom (per : Int) : Nat → List Int
  | 0 => []
  | n + 1 => per :: periodsFrom (per + 1) n

/-- The periods of the `solver->solve` calls of a trace, in trace order. -/
def solverCalls (tr : List Call) : List Int :=
  tr.filterMap (fun c => match c with
    | Call.solverSolve p => some p
    | _ => none)

/-- The periods of the `world->updateSummary` calls of a trace, in trace order. -/
def updateSummaryCalls (tr : List Call) : List Int :=
  tr.filterMap (fun c => match c with
    | Call.updateSummary p => some p
    | _ => none)

/-- The periods of the `world->emiss_ind` calls of a trace, in trace order. -/
def emissIndCalls (tr : List Call) : List Int :=
  tr.filterMap (fun c => match c with
    | Call.emiss_ind p => some p
    | _ => none)

/-- A run over periods 0 to 3 in which the solver fails on period 2 only. -/
def exampleEnv : RunEnv :=
  { modeltime := some exampleModeltime
    hasWorld := true
    solverSolve := fun p => p != 2
    printSectorDependenciesFlag := false
    printDependencyGraphs := false
    haveFortran := false }

/-- The unsolved periods a step ends with, whether or not it ran through. -/
def Step.unsolved : Step → List Int
  | Except.ok s => s.unsolvedPeriods
  | Except.error s => s.unsolvedPeriods

/-- The function `Scenario::completeInit`: `assert( world.get() )`, then
`world->completeInit()`. Without a world the assertion fails or, where
assertions are compiled out, the null pointer is dereferenced; execution stops
in either case. -/
def completeInit (env : RunEnv) (s : ScenarioState) : Step :=
  viaWorld env s Call.worldCompleteInit

/-- The call trace a step ends with, whether or not it ran through. -/
def Step.trace : Step → List Call
  | Except.ok s => s.trace
  | Except.error s => s.trace

/-- Whether a call is one of the steps that follow the period loop: the
emissions totals and the hand-off to the climate model. -/
def Call.isClimateStep : Call → Bool
  | Call.calculateEmissionsTotals => true
  | Call.writeClimatData => true
  | Call.CLIMAT => true
  | _ => false

/-- The example run with a modeltime but without a world. -/
def noWorldEnv : RunEnv := { exampleEnv with hasWorld := false }

/-- The example run with a world but without a modeltime. -/
def noModeltimeEnv : RunEnv := { exampleEnv with modeltime := none }

end Scenario

/-- A `double` of the program read over the exact rationals: a rational, or
`undef` for the result of a computation that has no rational value (a division
by zero, a negative power of zero), which IEEE arithmetic gives as an infinity
or a NaN. An operation with an `undef` argument is `undef`, bar `pow` with
exponent 0, and a comparison with `undef` is false, as for a NaN. -/
inductive QVal where
  | fin (q : ℚ)
  | undef
  deriving DecidableEq, Repr

namespace QVal

instance : OfNat QVal n := ⟨fin n⟩

/-- The conversion of an `int` to `double`. -/
def ofInt (n : Int) : QVal := fin n

/-- Addition of doubles. -/
def add : QVal → QVal → QVal
  | fin a, fin b => fin (a + b)
  | _, _ => undef

/-- Subtraction of doubles. -/
def sub : QVal → QVal → QVal
  | fin a, fin b => fin (a - b)
  | _, _ => undef

/-- Multiplication of doubles. -/
def mul : QVal → QVal → QVal
  | fin a, fin b => fin (a * b)
  | _, _ => undef

/-- Division of doubles: no rational value when the divisor is zero. -/
def div : QVal → QVal → QVal
  | fin a, fin b => if b = 0 then undef else fin (a / b)
  | _, _ => undef

instance : Add QVal := ⟨add⟩
instance : Sub QVal := ⟨sub⟩
instance : Mul QVal := ⟨mul⟩
instance : Div QVal := ⟨div⟩

/-- The library function `pow( base, exponent )` at an exponent that is an
integer: 1 at exponent 0, no rational value for a negative power of zero. -/
def pow (base : QVal) (exponent : Int) : QVal :=
  if exponent = 0 then fin 1
  else match base with
    | undef => undef
    | fin b =>
      if 0 < exponent then fin (b ^ exponent.toNat)
      else if b = 0 then undef
      else fin ((b ^ exponent.natAbs)⁻¹)

/-- The comparison `a > b` of doubles. -/
def gt : QVal → QVal → Bool
  | fin a, fin b => decide (b < a)
  | _, _ => false

/-- The library function `max( a, b )`, which is `( a < b ) ? b : a`. -/
def max (a b : QVal) : QVal := if gt b a then b else a

end QVal

/-- Division of `int` by `int`: truncation towards zero, and no defined result
for a zero divisor. -/
def cDiv (a b : Int) : Option Int := if b = 0 then none else some (a.tdiv b)

namespace ForestProductionTechnology

/-- The static member `ForestProductionTechnology::prefix`. -/
def futurePrefix : String := "Future"

/-- The argument `ILandAllocator::eForest` of `addLandUsage`. -/
inductive LandUsageType where
  | eForest
  deriving DecidableEq, Repr

/-- One entry of the call trace of the technology: a call with an effect on a
collaborator (land allocator, marketplace, logger, emissions objects, the base
class `technology`), with its arguments. -/
inductive FCall where
  | applyAgProdChange (landType name : String) (agProdChange : QVal) (period : Int)
  | addLandUsage (landType name : String) (kind : LandUsageType)
  | setCalLandAllocation (landType name : String) (calLandUsed : QVal)
      (harvestPeriod currentPeriod : Int)
  | setCalObservedYield (landType name : String) (calObservedYield : QVal) (period : Int)
  | setIntrinsicRate (region landType name : String) (rate : QVal) (period : Int)
  | calcYield (landType name : String) (profitRate : QVal) (harvestPeriod period : Int)
  | addToSupply (good region : String) (amount : QVal) (period : Int)
  | calcEmission (ghg region fuel : String) (input : QVal) (sector : String)
      (output : QVal) (period : Int)
  /-- The line of the main log "Read in value for calPrice in ... is too low by:". -/
  | logCalPriceTooLow (region name : String) (amount : QVal)
  | technologyInitCalc (region sector : String) (period : Int)
  | technologyCompleteInit (sector : String)
  deriving DecidableEq, Repr

/-- The doubles kept in the market info objects of the marketplace, by good,
region, period and key. A key that was never set reads as its entry here. -/
abbrev MarketInfo := String → String → Int → String → QVal

/-- The call `getMarketInfo( good, region, period, true )->setDouble( key, value )`. -/
def MarketInfo.setDouble (mi : MarketInfo) (good region : String) (period : Int)
    (key : String) (value : QVal) : MarketInfo :=
  fun g r p k => if g = good ∧ r = region ∧ p = period ∧ k = key then value else mi g r p k

/-- What the technology reads from its collaborators. -/
structure ForestEnv where
  /-- The model time of the global scenario. -/
  modeltime : Modeltime
  /-- The value of `aSubsectorInfo->getInteger( "rotationPeriod", true )`. -/
  rotationPeriodInfo : Int
  /-- The function `mLandAllocator->getCalAveObservedRate( landType, period )`. -/
  getCalAveObservedRate : String → Int → QVal
  /-- The function `mLandAllocator->getLandAllocation( sector, period )`. -/
  getLandAllocation : String → Int → QVal
  /-- The price of a good in a region and period on the marketplace. -/
  getPrice : String → String → Int → QVal
  /-- The function `FoodProductionTechnology::calcSupply( region, sector, period )`. -/
  calcSupply : String → String → Int → QVal

end ForestProductionTechnology

/-- The members of a `ForestProductionTechnology` the code reads or writes. -/
structure ForestProductionTechnology where
  name : String
  landType : String
  fuelname : String
  /-- The names of the gases in `ghg`. -/
  ghg : List String
  year : Int
  interestRate : QVal
  rotationPeriod : Int
  futureProduction : QVal
  calProduction : QVal
  calYield : QVal
  calLandUsed : QVal
  calObservedYield : QVal
  agProdChange : QVal
  variableCost : QVal
  share : QVal
  input : QVal
  output : QVal
  deriving DecidableEq, Repr

namespace ForestProductionTechnology

/-- The values the members of the loop of `setCalLandValues` have between two
iterations: its locals, the members `calLandUsed` and `calObservedYield`, the
calls on the land allocator so far, and the values of `nRotPeriodSteps` by which
the loop has divided so far. -/
structure CalLoopState where
  calProductionTemp : QVal
  calYieldTemp : QVal
  calLandUsed : QVal
  calObservedYield : QVal
  calls : List FCall
  stepDivisors : List Int
  deriving DecidableEq, Repr

/-- What a call of `setCalLandValues` leaves: the technology, the calls made on
the land allocator and the values by which the interpolation divided. -/
structure CalOutcome where
  tech : ForestProductionTechnology
  calls : List FCall
  stepDivisors : List Int
  deriving DecidableEq, Repr

/-- The body of the loop of `setCalLandValues` for loop variable `i`. -/
def setCalLandValuesBody (t : ForestProductionTechnology)
    (timestep nRotPeriodSteps period i : Int) (st : CalLoopState) : CalLoopState :=
  let calProductionTemp :=
    if i > period then
      st.calProductionTemp
        + (t.futureProduction - t.calProduction) / QVal.ofInt nRotPeriodSteps
    else st.calProductionTemp
  let calYieldTemp :=
    if i > period then
      t.calYield * QVal.pow (1 + t.agProdChange) (timestep * (i - 1))
    else st.calYieldTemp
  let calLandUsed := calProductionTemp / calYieldTemp
  { calProductionTemp := calProductionTemp
    calYieldTemp := calYieldTemp
    calLandUsed := calLandUsed
    calObservedYield := if i = period then calYieldTemp else st.calObservedYield
    calls := st.calls ++
      [FCall.setCalLandAllocation t.landType t.name calLandUsed i period,
       FCall.setCalObservedYield t.landType t.name calYieldTemp i]
    stepDivisors :=
      if i > period then st.stepDivisors ++ [nRotPeriodSteps] else st.stepDivisors }

/-- The loop of `setCalLandValues` with `n` iterations left to run from `i`. -/
def setCalLandValuesLoop (t : ForestProductionTechnology)
    (timestep nRotPeriodSteps period : Int) : Nat → Int → CalLoopState → CalLoopState
  | 0, _, st => st
  | n + 1, i, st =>
    setCalLandValuesLoop t timestep nRotPeriodSteps period n (i + 1)
      (setCalLandValuesBody t timestep nRotPeriodSteps period i st)

/-- The function `ForestProductionTechnology::setCalLandValues`; `none` when the
timestep is zero, where `rotationPeriod / timestep` has no defined result. The
loop `for ( i = period; i <= period + nRotPeriodSteps; i++ )` runs
`nRotPeriodSteps + 1` times, and not at all when that is not positive. -/
def setCalLandValues (mt : Modeltime) (t : ForestProductionTechnology) :
    Option CalOutcome :=
  let timestep := mt.gettimestep (mt.getyr_to_per t.year)
  match cDiv t.rotationPeriod timestep with
  | none => none
  | some steps =>
    -- -1 means not read in
    if t.calProduction ≠ QVal.fin (-1) ∧ t.calYield ≠ QVal.fin (-1) then
      let period := mt.getyr_to_per t.year
      let nRotPeriodSteps := if t.futureProduction = QVal.fin (-1) then 0 else steps
      let st := setCalLandValuesLoop t timestep nRotPeriodSteps period
        (nRotPeriodSteps + 1).toNat period
        { calProductionTemp := t.calProduction
          calYieldTemp := t.calYield
          calLandUsed := t.calLandUsed
          calObservedYield := 0
          calls := []
          stepDivisors := [] }
      some { tech := { t with calObservedYield := st.calObservedYield
                              calLandUsed := st.calLandUsed }
             calls := st.calls
             stepDivisors := st.stepDivisors }
    else some { tech := t, calls := [], stepDivisors := [] }

/-- The state in which the loop of `setCalLandValues` ends when it is entered
(`calProduction` and `calYield` are set) and the timestep is not zero. -/
def calLoopResult (mt : Modeltime) (t : ForestProductionTechnology) : CalLoopState :=
  let timestep := mt.gettimestep (mt.getyr_to_per t.year)
  let period := mt.getyr_to_per t.year
  let nRotPeriodSteps :=
    if t.futureProduction = QVal.fin (-1) then 0 else t.rotationPeriod.tdiv timestep
  setCalLandValuesLoop t timestep nRotPeriodSteps period
    (nRotPeriodSteps + 1).toNat period
    { calProductionTemp := t.calProduction
      calYieldTemp := t.calYield
      calLandUsed := t.calLandUsed
      calObservedYield := 0
      calls := []
      stepDivisors := [] }

/-- The function `ForestProductionTechnology::calcDiscountFactor`. -/
def calcDiscountFactor (t : ForestProductionTechnology) : QVal :=
  t.interestRate / (QVal.pow (1 + t.interestRate) t.rotationPeriod - 1)

/-- The function `ForestProductionTechnology::getHarvestPeriod`; `none` when the
timestep is zero. -/
def getHarvestPeriod (mt : Modeltime) (t : ForestProductionTechnology)
    (aCurrentPeriod : Int) : Option Int :=
  match cDiv t.rotationPeriod (mt.gettimestep (mt.getyr_to_per t.year)) with
  | none => none
  | some steps => some (aCurrentPeriod + steps)

/-- The function `ForestProductionTechnology::getFutureMarket`. -/
def getFutureMarket (aProductName : String) : String := futurePrefix ++ aProductName

/-- Modelled from the spec: `FoodProductionTechnology::calcProfitRate`, the
profit rate of the base class, whose source is not at hand. The spec gives
it as the market price of the product less the variable cost. -/
def foodCalcProfitRate (env : ForestEnv) (t : ForestProductionTechnology)
    (aRegionName aProductName : String) (aPeriod : Int) : QVal :=
  env.getPrice aProductName aRegionName aPeriod - t.variableCost

/-- The function `ForestProductionTechnology::calcProfitRate`. -/
def calcProfitRate (env : ForestEnv) (t : ForestProductionTechnology)
    (aRegionName aProductName : String) (aPeriod : Int) : QVal :=
  -- Calculate the future profit rate.
  let profitRate := foodCalcProfitRate env t aRegionName aProductName aPeriod
  -- Calculate the net present value.
  profitRate * calcDiscountFactor t

/-- What a call of `initCalc` leaves: the technology, the market info of the
marketplace, and the calls made. -/
structure InitCalcOutcome where
  tech : ForestProductionTechnology
  marketInfo : MarketInfo
  calls : List FCall

/-- The calibration variable cost that `initCalc` computes in its first branch,
for the technology as `setCalLandValues` left it. -/
def calVarCost (env : ForestEnv) (aRegionName : String) (mi : MarketInfo)
    (t : ForestProductionTechnology) : QVal :=
  let mt := env.modeltime
  let calPrice := mi t.name aRegionName (mt.getyr_to_per t.year) "calPrice"
  let profitFactor :=
    env.getCalAveObservedRate "UnmanagedLand" (mt.getyr_to_per t.year)
      / calcDiscountFactor t
  calPrice - profitFactor / t.calObservedYield

/-- The statement `if (( calObservedYield != -1 ) && ( year != getEndYear() ))`
of `initCalc` with both its branches, from the technology as `setCalLandValues`
left it up to, and not including, the call of `technology::initCalc`. -/
def initCalcBranch (env : ForestEnv) (aRegionName aSectorName : String)
    (mi : MarketInfo) (t : ForestProductionTechnology) : InitCalcOutcome :=
  let mt := env.modeltime
  if t.calObservedYield ≠ QVal.fin (-1) ∧ t.year ≠ mt.getEndYear then
    let calVarCost := calVarCost env aRegionName mi t
    let r1 : InitCalcOutcome :=
      if QVal.gt calVarCost 0 then
        let mi1 := mi.setDouble t.name aRegionName (mt.getyr_to_per t.year + 1)
          "calVarCost" calVarCost
        { tech := { t with variableCost := calVarCost }
          marketInfo := mi1
          calls := [] }
      else
        let mi1 := mi.setDouble t.name aRegionName (mt.getyr_to_per t.year + 1)
          "calVarCost" calVarCost
        { tech := t
          marketInfo := mi1
          calls := [FCall.logCalPriceTooLow aRegionName t.name (0 - calVarCost)] }
    if t.calProduction ≠ QVal.fin (-1) then
      -- Also set value to marketplace for future forest demand
      let existingDemand := QVal.max
        (r1.marketInfo (futurePrefix ++ aSectorName) aRegionName
          (mt.getyr_to_per t.year) "calSupply") 0
      let mi2 := r1.marketInfo.setDouble (futurePrefix ++ aSectorName) aRegionName
        (mt.getyr_to_per t.year) "calSupply" (existingDemand + t.futureProduction)
      { r1 with marketInfo := mi2 }
    else r1
  else
    let calVarCost := mi t.name aRegionName (mt.getyr_to_per t.year) "calVarCost"
    let mi1 :=
      if t.year ≠ mt.getEndYear then
        mi.setDouble t.name aRegionName (mt.getyr_to_per t.year + 1) "calVarCost" calVarCost
      else mi
    { tech := if QVal.gt calVarCost 0 then { t with variableCost := calVarCost } else t
      marketInfo := mi1
      calls := [] }

/-- The function `ForestProductionTechnology::initCalc`; `none` when the
timestep is zero (see `setCalLandValues`). -/
def initCalc (env : ForestEnv) (aRegionName aSectorName : String) (aPeriod : Int)
    (mi : MarketInfo) (t : ForestProductionTechnology) : Option InitCalcOutcome :=
  let mt := env.modeltime
  -- Only apply productivity change after 1990 since 1990 is calibrated year
  let calls0 :=
    if t.year > 1990 then
      [FCall.applyAgProdChange t.landType t.name t.agProdChange (mt.getyr_to_per t.year)]
    else []
  -- Set calibrated values to land allocator
  match setCalLandValues mt t with
  | none => none
  | some cal =>
    let r := initCalcBranch env aRegionName aSectorName mi cal.tech
    let calls := calls0 ++ cal.calls ++ r.calls
      ++ [FCall.technologyInitCalc aRegionName aSectorName aPeriod]
    some { r with calls := calls }

/-- The function `ForestProductionTechnology::completeInit`; `none` when the
timestep is zero (see `setCalLandValues`). -/
def completeInit (env : ForestEnv) (aSectorName : String)
    (t : ForestProductionTechnology) : Option CalOutcome :=
  -- Set rotation period variable so this can be used throughout object
  let t1 := { t with rotationPeriod := env.rotationPeriodInfo }
  -- Only add land usage once for all technologies of a given type.
  let calls0 :=
    if t1.year = env.modeltime.getStartYear then
      [FCall.addLandUsage t1.landType t1.name LandUsageType.eForest]
    else []
  match setCalLandValues env.modeltime t1 with
  | none => none
  | some cal =>
    let calls := calls0 ++ cal.calls ++ [FCall.technologyCompleteInit aSectorName]
    some { cal with calls := calls }

/-- The function `ForestProductionTechnology::calcShare`. -/
def calcShare (env : ForestEnv) (aRegionName aSectorName : String) (aPeriod : Int)
    (t : ForestProductionTechnology) : ForestProductionTechnology × List FCall :=
  let profitRate := calcProfitRate env t aRegionName (getFutureMarket aSectorName) aPeriod
  let profitRate := QVal.max profitRate 0
  ({ t with share := 1 },
   [FCall.setIntrinsicRate aRegionName t.landType t.name profitRate aPeriod])

/-- The function `ForestProductionTechnology::production`; `none` when the
timestep is zero, where `getHarvestPeriod` has no defined result. -/
def production (env : ForestEnv) (aRegionName aSectorName : String) (aPeriod : Int)
    (t : ForestProductionTechnology) :
    Option (ForestProductionTechnology × List FCall) :=
  -- Calculate profit rate.
  let profitRate := calcProfitRate env t aRegionName (getFutureMarket aSectorName) aPeriod
  -- Calculating the yield for future forest.
  match getHarvestPeriod env.modeltime t aPeriod with
  | none => none
  | some harvestPeriod =>
    -- Add the supply of future forestry to the future market.
    let futureSupply := env.calcSupply aRegionName aSectorName harvestPeriod
    -- now calculate the amount to be consumed this period
    let output := env.calcSupply aRegionName aSectorName aPeriod
    -- Set the input to be the land used.
    let input := env.getLandAllocation aSectorName aPeriod
    some ({ t with output := output, input := input },
      [FCall.calcYield t.landType t.name profitRate harvestPeriod aPeriod,
       FCall.addToSupply (getFutureMarket aSectorName) aRegionName futureSupply aPeriod,
       FCall.addToSupply t.name aRegionName output aPeriod]
      -- calculate emissions for each gas after setting input and output amounts
      ++ t.ghg.map (fun g =>
          FCall.calcEmission g aRegionName t.fuelname input aSectorName output aPeriod))

/-- The `addToSupply` calls of a trace, in trace order: good, region, amount and
period of each. -/
def supplyCalls (calls : List FCall) : List (String × String × QVal × Int) :=
  calls.filterMap (fun c => match c with
    | FCall.addToSupply g r a p => some (g, r, a, p)
    | _ => none)

/-- The calls of a trace that hand a calibrated land allocation or an observed
yield to the land allocator, in trace order. -/
def calRecords (calls : List FCall) : List FCall :=
  calls.filter (fun c => match c with
    | FCall.setCalLandAllocation _ _ _ _ _ => true
    | FCall.setCalObservedYield _ _ _ _ => true
    | _ => false)

/-- A forest technology of vintage 1990 with a rotation period of 45 years, an
interest rate of 2 percent, calibrated production 100 and yield 2, and future
production 130. -/
def exampleTech : ForestProductionTechnology :=
  { name := "Forest"
    landType := "ForestLand"
    fuelname := "none"
    ghg := ["CO2"]
    year := 1990
    interestRate := QVal.fin (1 / 50)
    rotationPeriod := 45
    futureProduction := QVal.fin 130
    calProduction := QVal.fin 100
    calYield := QVal.fin 2
    calLandUsed := QVal.fin 0
    calObservedYield := QVal.fin (-1)
    agProdChange := QVal.fin 0
    variableCost := QVal.fin 3
    share := QVal.fin 0
    input := QVal.fin 0
    output := QVal.fin 0 }

/-- The example technology with an interest rate of zero. -/
def zeroRateTech : ForestProductionTechnology :=
  { exampleTech with interestRate := QVal.fin 0 }

/-- The example technology with an interest rate of -2 and a rotation period
of 2 years. -/
def negRateTech : ForestProductionTechnology :=
  { exampleTech with interestRate := QVal.fin (-2), rotationPeriod := 2 }

/-- Collaborators for the example technology: an observed rate of 4 for
unmanaged land, a land allocation of 50, a price of 5 for every good, and a
supply of ten times the period. -/
def exampleForestEnv : ForestEnv :=
  { modeltime := exampleModeltime
    rotationPeriodInfo := 45
    getCalAveObservedRate := fun _ _ => QVal.fin 4
    getLandAllocation := fun _ _ => QVal.fin 50
    getPrice := fun _ _ _ => QVal.fin 5
    calcSupply := fun _ _ p => QVal.fin (10 * p) }

/-- Market info in which every "calPrice" is 1 and every other key reads 0. -/
def exampleMarketInfo : MarketInfo :=
  fun _ _ _ key => if key = "calPrice" then QVal.fin 1 else QVal.fin 0

/-- The periods for which a trace hands a calibrated land allocation to the land
allocator (the fourth argument of `setCalLandAllocation`), in trace order. -/
def allocationPeriods (calls : List FCall) : List Int :=
  calls.filterMap (fun c => match c with
    | FCall.setCalLandAllocation _ _ _ i _ => some i
    | _ => none)

/-- The periods for which a trace hands an observed yield to the land allocator
(the last argument of `setCalObservedYield`), in trace order. -/
def observedYieldPeriods (calls : List FCall) : List Int :=
  calls.filterMap (fun c => match c with
    | FCall.setCalObservedYield _ _ _ i => some i
    | _ => none)

/-- The yield `calYieldTemp` that the loop of `setCalLandValues` uses at loop
variable `i`: the calibrated yield at the first period, and the calibrated yield
times `pow( 1 + agProdChange, timestep * ( i - 1 ) )` after it. -/
def calYieldAt (t : ForestProductionTechnology) (timestep period i : Int) : QVal :=
  if i > period then t.calYield * QVal.pow (1 + t.agProdChange) (timestep * (i - 1))
  else t.calYield

/-- The two calls on the land allocator for the period `k` steps after `period`
when the production is interpolated linearly from `calProduction` at `period`
to `futureProduction` at `period + nRotPeriodSteps`: the land allocation is the
interpolated production `calProduction + k * (futureProduction - calProduction)
/ nRotPeriodSteps` divided by the yield used for the period, and the observed
yield is that yield. -/
def interpolatedRecords (t : ForestProductionTechnology)
    (timestep nRotPeriodSteps period : Int) (calProduction futureProduction : ℚ)
    (k : Nat) : List FCall :=
  [FCall.setCalLandAllocation t.landType t.name
     (QVal.fin (calProduction + k * (futureProduction - calProduction) / nRotPeriodSteps)
       / calYieldAt t timestep period (period + k))
     (period + k) period,
   FCall.setCalObservedYield t.landType t.name
     (calYieldAt t timestep period (period + k)) (period + k)]

/-- The example technology with no future production read in. -/
def noFutureTech : ForestProductionTechnology :=
  { exampleTech with futureProduction := QVal.fin (-1) }

end ForestProductionTechnology

namespace Scenario

theorem runPeriod_ok (env : RunEnv) (mt : Modeltime) (hmt : env.modeltime = some mt)
    (hw : env.hasWorld = true) (per : Int) (s : ScenarioState) :
    runPeriod env per s = Except.ok
      { unsolvedPeriods := unsolvedAfter env s.unsolvedPeriods per
        runCompleted := s.runCompleted
        trace := s.trace ++ periodCalls env mt per (unsolvedAfter env s.unsolvedPeriods per) } := by
  have hlen : (s.unsolvedPeriods.length : Int) + 1 ≠ 0 := by omega
  simp only [runPeriod, hmt, viaWorld, hw, solve, emit, unsolvedAfter, periodCalls]
  cases hs : env.solverSolve per <;> by_cases hl : mt.getmaxper - 1 = per <;>
    cases hg : env.printDependencyGraphs <;>
    simp [hl, hlen, bind, Except.bind, List.length_eq_zero]
  all_goals
    by_cases hu : s.unsolvedPeriods = [] <;> simp [hu]

theorem runLoop_ok (env : RunEnv) (mt : Modeltime) (hmt : env.modeltime = some mt)
    (hw : env.hasWorld = true) (n : Nat) (per : Int) (s : ScenarioState) :
    runLoop env n per s = Except.ok
      { unsolvedPeriods := loopUnsolved env s.unsolvedPeriods n per
        runCompleted := s.runCompleted
        trace := s.trace ++ loopCalls env mt s.unsolvedPeriods n per } := by
  induction n generalizing per s with
  | zero => simp [runLoop, loopUnsolved, loopCalls]
  | succ n ih =>
    simp only [runLoop, runPeriod_ok env mt hmt hw, bind, Except.bind, ih, loopUnsolved,
      loopCalls, List.append_assoc]

theorem run_ok (env : RunEnv) (mt : Modeltime) (hmt : env.modeltime = some mt)
    (hw : env.hasWorld = true) (s : ScenarioState) :
    run env s = Except.ok
      { unsolvedPeriods := loopUnsolved env s.unsolvedPeriods mt.getmaxper.toNat 0
        runCompleted := true
        trace := s.trace ++ runCalls env mt s.unsolvedPeriods } := by
  simp only [run, hmt, viaWorld, hw, emit, bind, Except.bind, runLoop_ok env mt hmt hw, runCalls]
  cases env.printSectorDependenciesFlag <;> cases env.haveFortran <;> simp

theorem periodsFrom_eq_map (per : Int) (n : Nat) :
    periodsFrom per n = (List.range n).map (fun (k : Nat) => per + (k : Int)) := by
  induction n generalizing per with
  | zero => simp [periodsFrom]
  | succ n ih =>
    rw [periodsFrom, ih, List.range_succ_eq_map]
    simp only [List.map_cons, List.map_map]
    congr 1
    · simp
    · apply List.map_congr_left
      intro k _
      show per + 1 + (k : Int) = per + ((k + 1 : Nat) : Int)
      push_cast
      ring

theorem periodsFrom_zero (n : Nat) : periodsFrom 0 n = periodsUpTo n := by
  rw [periodsFrom_eq_map, periodsUpTo]
  apply List.map_congr_left
  intro k _
  simp

theorem solverCalls_loopCalls (env : RunEnv) (mt : Modeltime) (n : Nat) (per : Int)
    (u : List Int) : solverCalls (loopCalls env mt u n per) = periodsFrom per n := by
  induction n generalizing per u with
  | zero => simp [loopCalls, solverCalls, periodsFrom]
  | succ n ih =>
    have hsplit : solverCalls (loopCalls env mt u (n + 1) per)
        = solverCalls (periodCalls env mt per (unsolvedAfter env u per))
          ++ solverCalls (loopCalls env mt (unsolvedAfter env u per) n (per + 1)) := by
      simp [loopCalls, solverCalls]
    rw [hsplit, ih, periodsFrom]
    unfold solverCalls periodCalls
    by_cases hl : mt.getmaxper - 1 = per <;> by_cases hu : unsolvedAfter env u per = [] <;>
      cases env.printDependencyGraphs <;> simp [hl, hu]

theorem updateSummaryCalls_loopCalls (env : RunEnv) (mt : Modeltime) (n : Nat) (per : Int)
    (u : List Int) : updateSummaryCalls (loopCalls env mt u n per) = periodsFrom per n := by
  induction n generalizing per u with
  | zero => simp [loopCalls, updateSummaryCalls, periodsFrom]
  | succ n ih =>
    have hsplit : updateSummaryCalls (loopCalls env mt u (n + 1) per)
        = updateSummaryCalls (periodCalls env mt per (unsolvedAfter env u per))
          ++ updateSummaryCalls (loopCalls env mt (unsolvedAfter env u per) n (per + 1)) := by
      simp [loopCalls, updateSummaryCalls]
    rw [hsplit, ih, periodsFrom]
    unfold updateSummaryCalls periodCalls
    by_cases hl : mt.getmaxper - 1 = per <;> by_cases hu : unsolvedAfter env u per = [] <;>
      cases env.printDependencyGraphs <;> simp [hl, hu]

theorem emissIndCalls_loopCalls (env : RunEnv) (mt : Modeltime) (n : Nat) (per : Int)
    (u : List Int) : emissIndCalls (loopCalls env mt u n per) = periodsFrom per n := by
  induction n generalizing per u with
  | zero => simp [loopCalls, emissIndCalls, periodsFrom]
  | succ n ih =>
    have hsplit : emissIndCalls (loopCalls env mt u (n + 1) per)
        = emissIndCalls (periodCalls env mt per (unsolvedAfter env u per))
          ++ emissIndCalls (loopCalls env mt (unsolvedAfter env u per) n (per + 1)) := by
      simp [loopCalls, emissIndCalls]
    rw [hsplit, ih, periodsFrom]
    unfold emissIndCalls periodCalls
    by_cases hl : mt.getmaxper - 1 = per <;> by_cases hu : unsolvedAfter env u per = [] <;>
      cases env.printDependencyGraphs <;> simp [hl, hu]

theorem periodSteps_loopCalls (env : RunEnv) (mt : Modeltime) (n : Nat) (per : Int)
    (u : List Int) :
    periodSteps (loopCalls env mt u n per) = (periodsFrom per n).flatMap nineSteps := by
  induction n generalizing per u with
  | zero => simp [loopCalls, periodSteps, periodsFrom]
  | succ n ih =>
    have hsplit : periodSteps (loopCalls env mt u (n + 1) per)
        = periodSteps (periodCalls env mt per (unsolvedAfter env u per))
          ++ periodSteps (loopCalls env mt (unsolvedAfter env u per) n (per + 1)) := by
      simp [loopCalls, periodSteps]
    rw [hsplit, ih, periodsFrom, List.flatMap_cons]
    congr 1
    unfold periodSteps periodCalls nineSteps
    by_cases hl : mt.getmaxper - 1 = per <;> by_cases hu : unsolvedAfter env u per = [] <;>
      cases env.printDependencyGraphs <;> simp [hl, hu, Call.isPeriodStep, List.filter_cons]

theorem filter_period_nineSteps (p q : Int) :
    (nineSteps q).filter (fun c => decide (c.period? = some p))
      = if q = p then nineSteps p else [] := by
  by_cases h : q = p
  · subst h
    simp [nineSteps, Call.period?]
  · simp [nineSteps, Call.period?, h, List.filter_cons]

theorem filter_period_flatMap (p per : Int) (n : Nat) :
    ((periodsFrom per n).flatMap nineSteps).filter (fun c => decide (c.period? = some p))
      = if per ≤ p ∧ p < per + n then nineSteps p else [] := by
  induction n generalizing per with
  | zero =>
    have : ¬ (per ≤ p ∧ p < per + ((0 : Nat) : Int)) := by push_cast; omega
    simp [periodsFrom, this]
  | succ n ih =>
    rw [periodsFrom, List.flatMap_cons, List.filter_append, filter_period_nineSteps, ih]
    by_cases h1 : per = p
    · subst h1
      have h2 : ¬ (per + 1 ≤ per ∧ per < per + 1 + (n : Int)) := by omega
      have h3 : per ≤ per ∧ per < per + ((n + 1 : Nat) : Int) := by push_cast; omega
      rw [if_pos rfl, if_neg h2, if_pos h3, List.append_nil]
    · by_cases h2 : per + 1 ≤ p ∧ p < per + 1 + (n : Int)
      · have h3 : per ≤ p ∧ p < per + ((n + 1 : Nat) : Int) := by push_cast; omega
        rw [if_neg h1, if_pos h2, if_pos h3, List.nil_append]
      · have h3 : ¬ (per ≤ p ∧ p < per + ((n + 1 : Nat) : Int)) := by push_cast; omega
        rw [if_neg h1, if_neg h2, if_neg h3, List.nil_append]

/-- C2: when world and modeltime are set, a run calls `solver->solve` exactly
once for each period `0, 1, ..., getmaxper() - 1`, in ascending order, and so
too `world->updateSummary` and `world->emiss_ind`, whatever the solver returns
for any period. -/
theorem run_solves_every_period (env : RunEnv) (mt : Modeltime)
    (hmt : env.modeltime = some mt) (hw : env.hasWorld = true) (s0 : ScenarioState) :
    ∃ s tr, run env s0 = Except.ok s ∧ s.trace = s0.trace ++ tr ∧
      solverCalls tr = periodsUpTo mt.getmaxper.toNat ∧
      updateSummaryCalls tr = periodsUpTo mt.getmaxper.toNat ∧
      emissIndCalls tr = periodsUpTo mt.getmaxper.toNat := by
  refine ⟨_, runCalls env mt s0.unsolvedPeriods, run_ok env mt hmt hw s0, rfl, ?_, ?_, ?_⟩
  · have h : solverCalls (runCalls env mt s0.unsolvedPeriods)
        = solverCalls (loopCalls env mt s0.unsolvedPeriods mt.getmaxper.toNat 0) := by
      unfold runCalls solverCalls
      cases env.printSectorDependenciesFlag <;> cases env.haveFortran <;> simp
    rw [h, solverCalls_loopCalls, periodsFrom_zero]
  · have h : updateSummaryCalls (runCalls env mt s0.unsolvedPeriods)
        = updateSummaryCalls (loopCalls env mt s0.unsolvedPeriods mt.getmaxper.toNat 0) := by
      unfold runCalls updateSummaryCalls
      cases env.printSectorDependenciesFlag <;> cases env.haveFortran <;> simp
    rw [h, updateSummaryCalls_loopCalls, periodsFrom_zero]
  · have h : emissIndCalls (runCalls env mt s0.unsolvedPeriods)
        = emissIndCalls (loopCalls env mt s0.unsolvedPeriods mt.getmaxper.toNat 0) := by
      unfold runCalls emissIndCalls
      cases env.printSectorDependenciesFlag <;> cases env.haveFortran <;> simp
    rw [h, emissIndCalls_loopCalls, periodsFrom_zero]

/-- In the example the solver fails on period 2, and periods 0 to 3 are all
solved for and summarised, period 3 included. -/
theorem run_solves_every_period_witness :
    ∃ s tr, run exampleEnv ScenarioState.constructed = Except.ok s ∧
      s.trace = ScenarioState.constructed.trace ++ tr ∧
      solverCalls tr = [0, 1, 2, 3] ∧ updateSummaryCalls tr = [0, 1, 2, 3] ∧
      emissIndCalls tr = [0, 1, 2, 3] :=
  run_solves_every_period exampleEnv exampleModeltime rfl rfl ScenarioState.constructed

/-- C3: when world and modeltime are set, the per-period steps of a run are, in
trace order, the nine steps `nullDemands`, `nullSupplies`, `storeto_last`,
`init_to_last`, `initCalc`, `calc`, `solve`, `updateSummary`, `emiss_ind` of
period 0, then the nine of period 1, and so on to the last period; so the steps
made for a period `p` are these nine, once each and in this order. -/
theorem run_period_steps_in_order (env : RunEnv) (mt : Modeltime)
    (hmt : env.modeltime = some mt) (hw : env.hasWorld = true) (s0 : ScenarioState) :
    ∃ s tr, run env s0 = Except.ok s ∧ s.trace = s0.trace ++ tr ∧
      periodSteps tr = (periodsUpTo mt.getmaxper.toNat).flatMap nineSteps ∧
      ∀ p, 0 ≤ p → p < mt.getmaxper → periodStepsOf p tr = nineSteps p := by
  have h : periodSteps (runCalls env mt s0.unsolvedPeriods)
      = (periodsFrom 0 mt.getmaxper.toNat).flatMap nineSteps := by
    rw [← periodSteps_loopCalls env mt _ 0 s0.unsolvedPeriods]
    unfold runCalls periodSteps
    cases env.printSectorDependenciesFlag <;> cases env.haveFortran <;>
      simp [Call.isPeriodStep, List.filter_cons]
  refine ⟨_, runCalls env mt s0.unsolvedPeriods, run_ok env mt hmt hw s0, rfl, ?_, ?_⟩
  · rw [h, periodsFrom_zero]
  · intro p hp0 hpN
    have hsplit : periodStepsOf p (runCalls env mt s0.unsolvedPeriods)
        = (periodSteps (runCalls env mt s0.unsolvedPeriods)).filter
            (fun c => decide (c.period? = some p)) := by
      unfold periodStepsOf periodSteps
      rw [List.filter_filter]
      congr 1
      funext c
      rw [Bool.and_comm]
    rw [hsplit, h, filter_period_flatMap, if_pos]
    constructor <;> omega

/-- The per-period steps of the example run, period after period. -/
theorem run_period_steps_in_order_witness :
    ∃ s tr, run exampleEnv ScenarioState.constructed = Except.ok s ∧
      s.trace = ScenarioState.constructed.trace ++ tr ∧
      periodSteps tr = nineSteps 0 ++ nineSteps 1 ++ nineSteps 2 ++ nineSteps 3 ∧
      ∀ p, 0 ≤ p → p < 4 → periodStepsOf p tr = nineSteps p :=
  run_period_steps_in_order exampleEnv exampleModeltime rfl rfl ScenarioState.constructed


theorem completeInit_without_world (env : RunEnv) (hw : env.hasWorld = false)
    (s : ScenarioState) : completeInit env s = Except.error s := by
  simp [completeInit, viaWorld, hw]

theorem run_without_modeltime (env : RunEnv) (hmt : env.modeltime = none)
    (s0 : ScenarioState) :
    ∃ s tr, run env s0 = Except.error s ∧ s.trace = s0.trace ++ tr ∧ periodSteps tr = [] := by
  by_cases hf : env.printSectorDependenciesFlag = true
  · by_cases hw : env.hasWorld = true
    · have h : run env s0 = Except.error (emit s0 [Call.openDebugXMLFile,
          Call.printSectorDependencies, Call.initPrices, Call.toDebugXMLOpen]) := by
        simp [run, hmt, hf, hw, viaWorld, emit, bind, Except.bind]
      exact ⟨_, _, h, rfl, rfl⟩
    · have h : run env s0 = Except.error (emit s0 [Call.openDebugXMLFile]) := by
        simp [run, hf, hw, viaWorld, emit, bind, Except.bind]
      exact ⟨_, _, h, rfl, rfl⟩
  · have h : run env s0 = Except.error (emit s0 [Call.openDebugXMLFile,
        Call.initPrices, Call.toDebugXMLOpen]) := by
      simp [run, hmt, hf, emit, bind, Except.bind]
    exact ⟨_, _, h, rfl, rfl⟩

theorem run_without_world (env : RunEnv) (mt : Modeltime) (hmt : env.modeltime = some mt)
    (hw : env.hasWorld = false) (hflag : env.printSectorDependenciesFlag = false)
    (hN : 1 ≤ mt.getmaxper) (s0 : ScenarioState) :
    run env s0 = Except.error (emit s0
      [Call.openDebugXMLFile, Call.initPrices, Call.toDebugXMLOpen,
       Call.periodHeader 0 (mt.getper_to_yr 0), Call.nullDemands 0, Call.nullSupplies 0,
       Call.storeto_last 0, Call.init_to_last 0]) := by
  obtain ⟨n, hn⟩ : ∃ n, mt.getmaxper.toNat = n + 1 := ⟨mt.getmaxper.toNat - 1, by omega⟩
  simp [run, hmt, hw, hflag, hn, runLoop, runPeriod, viaWorld, emit, bind, Except.bind]

/-- C11 fails for a missing world: the run of the example without a world, with
its modeltime of four periods, writes the header of period 0 and makes the four
marketplace calls of period 0 before it stops at `world->initCalc( 0 )`. -/
theorem run_without_world_resets_markets :
    run noWorldEnv ScenarioState.constructed = Except.error
      { unsolvedPeriods := []
        runCompleted := false
        trace := [Call.openDebugXMLFile, Call.initPrices, Call.toDebugXMLOpen,
          Call.periodHeader 0 1975, Call.nullDemands 0, Call.nullSupplies 0,
          Call.storeto_last 0, Call.init_to_last 0] } := by
  rfl

theorem climateSteps_periodCalls (env : RunEnv) (mt : Modeltime) (per : Int)
    (u : List Int) : (periodCalls env mt per u).filter Call.isClimateStep = [] := by
  unfold periodCalls
  by_cases hl : mt.getmaxper - 1 = per <;> by_cases hu : u = [] <;>
    cases env.printDependencyGraphs <;>
    simp [hl, hu, Call.isClimateStep, List.filter_cons]

theorem climateSteps_loopCalls (env : RunEnv) (mt : Modeltime) (n : Nat) (per : Int)
    (u : List Int) : (loopCalls env mt u n per).filter Call.isClimateStep = [] := by
  induction n generalizing per u with
  | zero => simp [loopCalls]
  | succ n ih =>
    rw [loopCalls, List.filter_append, climateSteps_periodCalls, ih, List.append_nil]

/-- C12: when world and modeltime are set, the calls of a run end with
`toDebugXMLClose`, `calculateEmissionsTotals`, `writeClimatData`, `CLIMAT` where
the build has Fortran, and the closing of the debug stream; the calls before
these hold all the per-period steps of all periods and no emissions totals and
no hand-off to the climate model. So the emissions totals are computed once,
after the last step of the last period, and the hand-off is made once, after
them. -/
theorem run_climate_steps_after_loop (env : RunEnv) (mt : Modeltime)
    (hmt : env.modeltime = some mt) (hw : env.hasWorld = true) (s0 : ScenarioState) :
    ∃ s before, run env s0 = Except.ok s ∧
      s.trace = s0.trace ++ (before
        ++ [Call.toDebugXMLClose, Call.calculateEmissionsTotals, Call.writeClimatData]
        ++ (if env.haveFortran then [Call.CLIMAT] else [])
        ++ [Call.closeDebugStream]) ∧
      (∀ c ∈ before, c.isClimateStep = false) ∧
      periodSteps before = (periodsUpTo mt.getmaxper.toNat).flatMap nineSteps := by
  refine ⟨_, [Call.openDebugXMLFile]
      ++ (if env.printSectorDependenciesFlag then [Call.printSectorDependencies] else [])
      ++ [Call.initPrices, Call.toDebugXMLOpen]
      ++ loopCalls env mt s0.unsolvedPeriods mt.getmaxper.toNat 0,
    run_ok env mt hmt hw s0, ?_, ?_, ?_⟩
  · simp only [runCalls, List.append_assoc]
  · have h : ([Call.openDebugXMLFile]
        ++ (if env.printSectorDependenciesFlag then [Call.printSectorDependencies] else [])
        ++ [Call.initPrices, Call.toDebugXMLOpen]
        ++ loopCalls env mt s0.unsolvedPeriods mt.getmaxper.toNat 0).filter
          Call.isClimateStep = [] := by
      rw [List.filter_append, climateSteps_loopCalls]
      cases env.printSectorDependenciesFlag <;> simp [Call.isClimateStep, List.filter_cons]
    intro c hc
    have hnot := (List.filter_eq_nil_iff.1 h) c hc
    simpa using hnot
  · rw [← periodsFrom_zero, ← periodSteps_loopCalls env mt _ 0 s0.unsolvedPeriods]
    unfold periodSteps
    cases env.printSectorDependenciesFlag <;> simp [Call.isClimateStep, Call.isPeriodStep,
      List.filter_cons]

/-- The calls of the example run: its 36 per-period steps come before the
emissions totals, which come before the writing of the climate data. -/
theorem run_climate_steps_after_loop_witness :
    ∃ s before, run exampleEnv ScenarioState.constructed = Except.ok s ∧
      s.trace = ScenarioState.constructed.trace ++ (before
        ++ [Call.toDebugXMLClose, Call.calculateEmissionsTotals, Call.writeClimatData]
        ++ (if exampleEnv.haveFortran then [Call.CLIMAT] else [])
        ++ [Call.closeDebugStream]) ∧
      (∀ c ∈ before, c.isClimateStep = false) ∧
      periodSteps before = nineSteps 0 ++ nineSteps 1 ++ nineSteps 2 ++ nineSteps 3 :=
  run_climate_steps_after_loop exampleEnv exampleModeltime rfl rfl ScenarioState.constructed

end Scenario

namespace QVal

@[simp]
theorem fin_add_fin (a b : ℚ) : fin a + fin b = fin (a + b) := rfl

@[simp]
theorem fin_sub_fin (a b : ℚ) : fin a - fin b = fin (a - b) := rfl

@[simp]
theorem fin_mul_fin (a b : ℚ) : fin a * fin b = fin (a * b) := rfl

@[simp]
theorem fin_div_fin (a b : ℚ) :
    fin a / fin b = if b = 0 then undef else fin (a / b) := rfl

@[simp]
theorem ofNat_eq_fin (n : Nat) : (OfNat.ofNat n : QVal) = fin n := rfl

@[simp]
theorem ofInt_eq_fin (n : Int) : ofInt n = fin n := rfl

@[simp]
theorem undef_mul (a : QVal) : undef * a = undef := rfl

@[simp]
theorem mul_undef (a : QVal) : a * undef = undef := by
  cases a <;> rfl

@[simp]
theorem gt_fin_fin (a b : ℚ) : gt (fin a) (fin b) = decide (b < a) := rfl

theorem pow_fin_of_pos (b : ℚ) (e : Int) (he : 0 < e) :
    pow (fin b) e = fin (b ^ e.toNat) := by
  have h0 : e ≠ 0 := by omega
  simp only [pow, if_neg h0, if_pos he]

end QVal

namespace ForestProductionTechnology

theorem cDiv_of_ne_zero (a b : Int) (hb : b ≠ 0) : cDiv a b = some (a.tdiv b) := by
  simp [cDiv, hb]

theorem setCalLandValuesLoop_members (t : ForestProductionTechnology)
    (a b : QVal) (timestep nRotPeriodSteps period : Int) (n : Nat) (i : Int)
    (st : CalLoopState) :
    setCalLandValuesLoop { t with calObservedYield := a, calLandUsed := b }
        timestep nRotPeriodSteps period n i st
      = setCalLandValuesLoop t timestep nRotPeriodSteps period n i st := by
  induction n generalizing i st with
  | zero => rfl
  | succ n ih =>
    simp only [setCalLandValuesLoop]
    rw [ih]
    rfl

theorem setCalLandValuesLoop_calLandUsed (t : ForestProductionTechnology)
    (timestep nRotPeriodSteps period : Int) (n : Nat) (hn : n ≠ 0) (i : Int)
    (st : CalLoopState) (x : QVal) :
    setCalLandValuesLoop t timestep nRotPeriodSteps period n i { st with calLandUsed := x }
      = setCalLandValuesLoop t timestep nRotPeriodSteps period n i st := by
  cases n with
  | zero => exact absurd rfl hn
  | succ n => rfl

theorem setCalLandValues_of_set (mt : Modeltime) (t : ForestProductionTechnology)
    (hts : mt.gettimestep (mt.getyr_to_per t.year) ≠ 0)
    (hc : t.calProduction ≠ QVal.fin (-1) ∧ t.calYield ≠ QVal.fin (-1)) :
    setCalLandValues mt t = some
      { tech := { t with calObservedYield := (calLoopResult mt t).calObservedYield
                         calLandUsed := (calLoopResult mt t).calLandUsed }
        calls := (calLoopResult mt t).calls
        stepDivisors := (calLoopResult mt t).stepDivisors } := by
  simp only [setCalLandValues, cDiv_of_ne_zero _ _ hts, if_pos hc, calLoopResult]

theorem setCalLandValues_of_unset (mt : Modeltime) (t : ForestProductionTechnology)
    (hts : mt.gettimestep (mt.getyr_to_per t.year) ≠ 0)
    (hc : ¬ (t.calProduction ≠ QVal.fin (-1) ∧ t.calYield ≠ QVal.fin (-1))) :
    setCalLandValues mt t = some { tech := t, calls := [], stepDivisors := [] } := by
  simp only [setCalLandValues, cDiv_of_ne_zero _ _ hts, if_neg hc]

theorem calLoopResult_again (mt : Modeltime) (t : ForestProductionTechnology) :
    calLoopResult mt { t with calObservedYield := (calLoopResult mt t).calObservedYield
                              calLandUsed := (calLoopResult mt t).calLandUsed }
      = calLoopResult mt t := by
  by_cases hn : ((if t.futureProduction = QVal.fin (-1) then 0
      else t.rotationPeriod.tdiv (mt.gettimestep (mt.getyr_to_per t.year))) + 1).toNat = 0
  · simp only [calLoopResult, hn, setCalLandValuesLoop]
  · have h := setCalLandValuesLoop_calLandUsed t
      (mt.gettimestep (mt.getyr_to_per t.year))
      (if t.futureProduction = QVal.fin (-1) then 0
        else t.rotationPeriod.tdiv (mt.gettimestep (mt.getyr_to_per t.year)))
      (mt.getyr_to_per t.year) _ hn (mt.getyr_to_per t.year)
      { calProductionTemp := t.calProduction
        calYieldTemp := t.calYield
        calLandUsed := t.calLandUsed
        calObservedYield := 0
        calls := []
        stepDivisors := [] }
      (calLoopResult mt t).calLandUsed
    simp only [calLoopResult, setCalLandValuesLoop_members] at h ⊢
    exact h

/-- C4: with a timestep that is not zero, `setCalLandValues` returns, and a
second call made right after returns what the first returned: the same calls on
the land allocator, with the same periods, land allocations and yields and in
the same order, and the technology as the first call left it, `calObservedYield`
and `calLandUsed` included. -/
theorem setCalLandValues_idempotent (mt : Modeltime) (t : ForestProductionTechnology)
    (hts : mt.gettimestep (mt.getyr_to_per t.year) ≠ 0) :
    ∃ o, setCalLandValues mt t = some o ∧ setCalLandValues mt o.tech = some o := by
  by_cases hc : t.calProduction ≠ QVal.fin (-1) ∧ t.calYield ≠ QVal.fin (-1)
  · refine ⟨_, setCalLandValues_of_set mt t hts hc, ?_⟩
    have h := setCalLandValues_of_set mt
      { t with calObservedYield := (calLoopResult mt t).calObservedYield
               calLandUsed := (calLoopResult mt t).calLandUsed } hts hc
    rw [calLoopResult_again] at h
    exact h
  · exact ⟨_, setCalLandValues_of_unset mt t hts hc, setCalLandValues_of_unset mt t hts hc⟩

/-- The second call of `setCalLandValues` on the example technology returns what
the first returned. -/
theorem setCalLandValues_idempotent_witness :
    ∃ o, setCalLandValues exampleModeltime exampleTech = some o ∧
      setCalLandValues exampleModeltime o.tech = some o :=
  setCalLandValues_idempotent exampleModeltime exampleTech (by decide)

/-- C5 (as amended): at an interest rate of zero and a positive rotation period
`calcDiscountFactor` has no fallback: it divides zero by `1 ^ rotationPeriod - 1`,
which is zero, and what it returns is no rational number. -/
theorem calcDiscountFactor_zero_rate (t : ForestProductionTechnology)
    (h0 : t.interestRate = QVal.fin 0) (hR : 0 < t.rotationPeriod) :
    QVal.pow (1 + t.interestRate) t.rotationPeriod - 1 = QVal.fin 0 ∧
      calcDiscountFactor t = QVal.undef := by
  have hden : QVal.pow (1 + t.interestRate) t.rotationPeriod - 1 = QVal.fin 0 := by
    rw [h0]
    simp [QVal.pow_fin_of_pos _ _ hR]
  refine ⟨hden, ?_⟩
  rw [calcDiscountFactor, hden, h0]
  simp

/-- C5 (as stated) fails: at an interest rate of zero and a rotation period of
45 years `calcDiscountFactor` does not return 1/45. -/
theorem calcDiscountFactor_zero_rate_no_fallback :
    zeroRateTech.interestRate = QVal.fin 0 ∧ 0 < zeroRateTech.rotationPeriod ∧
      calcDiscountFactor zeroRateTech ≠ QVal.fin (1 / 45) := by
  refine ⟨rfl, by decide, ?_⟩
  have h : calcDiscountFactor zeroRateTech = QVal.undef := by
    simp [calcDiscountFactor, zeroRateTech, exampleTech, QVal.pow]
  rw [h]
  exact fun h => QVal.noConfusion h

/-- At an interest rate of zero and a rotation period of 45 years the divisor
is zero and the discount factor is undefined. -/
theorem calcDiscountFactor_zero_rate_witness :
    QVal.pow (1 + zeroRateTech.interestRate) zeroRateTech.rotationPeriod - 1 = QVal.fin 0 ∧
      calcDiscountFactor zeroRateTech = QVal.undef :=
  calcDiscountFactor_zero_rate zeroRateTech rfl (by decide)

theorem calcDiscountFactor_of_defined (t : ForestProductionTechnology) (rate : ℚ)
    (hrate : t.interestRate = QVal.fin rate) (hR : 1 ≤ t.rotationPeriod)
    (hden : (1 + rate) ^ t.rotationPeriod.toNat ≠ 1) :
    calcDiscountFactor t
      = QVal.fin (rate / ((1 + rate) ^ t.rotationPeriod.toNat - 1)) := by
  have hd : (1 + rate) ^ t.rotationPeriod.toNat - 1 ≠ 0 := sub_ne_zero.2 hden
  rw [calcDiscountFactor, hrate]
  simp [QVal.pow_fin_of_pos _ _ (show 0 < t.rotationPeriod by omega), hd]

/-- C6 (as amended): for rational price, variable cost and interest rate, an
interest rate other than zero, a rotation period of at least one year and
`(1 + interestRate) ^ rotationPeriod` other than 1, `calcDiscountFactor`
returns `interestRate / ((1 + interestRate) ^ rotationPeriod - 1)` and
`calcProfitRate` returns the price less the variable cost, times that factor. -/
theorem calcProfitRate_eq (env : ForestEnv) (t : ForestProductionTechnology)
    (aRegionName aProductName : String) (aPeriod : Int) (price cost rate : ℚ)
    (hprice : env.getPrice aProductName aRegionName aPeriod = QVal.fin price)
    (hcost : t.variableCost = QVal.fin cost) (hrate : t.interestRate = QVal.fin rate)
    (_h0 : rate ≠ 0) (hR : 1 ≤ t.rotationPeriod)
    (hden : (1 + rate) ^ t.rotationPeriod.toNat ≠ 1) :
    calcDiscountFactor t
        = QVal.fin (rate / ((1 + rate) ^ t.rotationPeriod.toNat - 1)) ∧
      calcProfitRate env t aRegionName aProductName aPeriod
        = QVal.fin ((price - cost) * (rate / ((1 + rate) ^ t.rotationPeriod.toNat - 1))) := by
  have hdf := calcDiscountFactor_of_defined t rate hrate hR hden
  refine ⟨hdf, ?_⟩
  rw [calcProfitRate, hdf, foodCalcProfitRate, hprice, hcost]
  simp

/-- C6 (as stated) fails: at an interest rate of -2 and a rotation period of 2
years, both within the stated range, the divisor `(1 - 2) ^ 2 - 1` is zero, and
neither the discount factor nor the profit rate is a rational number. -/
theorem calcProfitRate_undefined_at_negative_rate :
    negRateTech.interestRate = QVal.fin (-2) ∧ (1 : Int) ≤ negRateTech.rotationPeriod ∧
      calcDiscountFactor negRateTech = QVal.undef ∧
      calcProfitRate exampleForestEnv negRateTech "USA" "FutureForest" 1 = QVal.undef := by
  have h : calcDiscountFactor negRateTech = QVal.undef := by
    simp [calcDiscountFactor, negRateTech, exampleTech, QVal.pow]
    norm_num
  refine ⟨rfl, by decide, h, ?_⟩
  rw [calcProfitRate, h]
  simp

/-- The example technology at a price of 5: variable cost 3, interest rate
1/50, rotation period 45. -/
theorem calcProfitRate_eq_witness :
    calcDiscountFactor exampleTech
        = QVal.fin ((1 / 50) / ((1 + 1 / 50) ^ 45 - 1)) ∧
      calcProfitRate exampleForestEnv exampleTech "USA" "FutureForest" 1
        = QVal.fin ((5 - 3) * ((1 / 50) / ((1 + 1 / 50) ^ 45 - 1))) :=
  calcProfitRate_eq exampleForestEnv exampleTech "USA" "FutureForest" 1 5 3 (1 / 50)
    rfl rfl rfl (by norm_num) (by decide)
    (by rw [show exampleTech.rotationPeriod.toNat = 45 from rfl]; norm_num)

/-- C7: with a timestep (that of the period of the technology's year) other
than zero, `getHarvestPeriod( p )` is `p` plus the rotation period divided by
the timestep, the division truncating; and the lag between harvest period and
current period is the same at any two current periods. -/
theorem getHarvestPeriod_eq (mt : Modeltime) (t : ForestProductionTechnology) (p : Int)
    (hts : mt.gettimestep (mt.getyr_to_per t.year) ≠ 0) :
    getHarvestPeriod mt t p
        = some (p + t.rotationPeriod.tdiv (mt.gettimestep (mt.getyr_to_per t.year))) ∧
      ∀ q, ∃ hp hq, getHarvestPeriod mt t p = some hp ∧
        getHarvestPeriod mt t q = some hq ∧ hp - p = hq - q := by
  have h : ∀ q, getHarvestPeriod mt t q
      = some (q + t.rotationPeriod.tdiv (mt.gettimestep (mt.getyr_to_per t.year))) := by
    intro q
    simp only [getHarvestPeriod, cDiv_of_ne_zero _ _ hts]
  refine ⟨h p, fun q => ⟨_, _, h p, h q, ?_⟩⟩
  omega

/-- With a rotation period of 45 years and a timestep of 15 the harvest period
of period 1 is period 4, and the lag is 3 at every period. -/
theorem getHarvestPeriod_eq_witness :
    getHarvestPeriod exampleModeltime exampleTech 1 = some 4 ∧
      ∀ q, ∃ hp hq, getHarvestPeriod exampleModeltime exampleTech 1 = some hp ∧
        getHarvestPeriod exampleModeltime exampleTech q = some hq ∧ hp - 1 = hq - q :=
  getHarvestPeriod_eq exampleModeltime exampleTech 1 (by decide)

/-- C8: with a rotation period that is not negative and a positive timestep,
`getHarvestPeriod( p )` returns a period that is not before `p`. -/
theorem getHarvestPeriod_ge (mt : Modeltime) (t : ForestProductionTechnology) (p : Int)
    (hR : 0 ≤ t.rotationPeriod) (hts : 0 < mt.gettimestep (mt.getyr_to_per t.year)) :
    ∃ h, getHarvestPeriod mt t p = some h ∧ p ≤ h := by
  refine ⟨p + t.rotationPeriod.tdiv (mt.gettimestep (mt.getyr_to_per t.year)), ?_, ?_⟩
  · simp only [getHarvestPeriod, cDiv_of_ne_zero _ _ (ne_of_gt hts)]
  · have := Int.tdiv_nonneg hR (le_of_lt hts)
    omega

/-- The harvest period of period 2 of the example is period 5, after period 2. -/
theorem getHarvestPeriod_ge_witness :
    ∃ h, getHarvestPeriod exampleModeltime exampleTech 2 = some h ∧ (2 : Int) ≤ h :=
  getHarvestPeriod_ge exampleModeltime exampleTech 2 (by decide) (by decide)

theorem supplyCalls_calcEmission (gs : List String) (region fuel sector : String)
    (input output : QVal) (period : Int) :
    supplyCalls (gs.map (fun g =>
      FCall.calcEmission g region fuel input sector output period)) = [] := by
  induction gs with
  | nil => rfl
  | cons g gs ih =>
    simp only [supplyCalls, List.map_cons, List.filterMap_cons] at ih ⊢
    exact ih

theorem production_of_harvestPeriod (env : ForestEnv) (aRegionName aSectorName : String)
    (aPeriod : Int) (t : ForestProductionTechnology) (h : Int)
    (hh : getHarvestPeriod env.modeltime t aPeriod = some h) :
    ∃ t1 calls, production env aRegionName aSectorName aPeriod t = some (t1, calls) ∧
      t1.output = env.calcSupply aRegionName aSectorName aPeriod ∧
      supplyCalls calls
        = [(getFutureMarket aSectorName, aRegionName,
              env.calcSupply aRegionName aSectorName h, aPeriod),
           (t.name, aRegionName, env.calcSupply aRegionName aSectorName aPeriod, aPeriod)] := by
  simp only [production, hh]
  refine ⟨_, _, rfl, rfl, ?_⟩
  have happ : ∀ (a b : List FCall), supplyCalls (a ++ b) = supplyCalls a ++ supplyCalls b :=
    fun a b => List.filterMap_append a b _
  rw [happ, supplyCalls_calcEmission]
  rfl

/-- C9 (as amended): when the harvest period of period `p` lies after the last
period of the model, `production( p )` still adds the future supply to a
market: its `addToSupply` calls are, in this order, the supply of the harvest
period to the future market and the supply of period `p` to the market of the
technology, both for period `p`. -/
theorem production_adds_future_supply_beyond_horizon (env : ForestEnv)
    (aRegionName aSectorName : String) (aPeriod : Int) (t : ForestProductionTechnology)
    (h : Int) (hh : getHarvestPeriod env.modeltime t aPeriod = some h)
    (_hout : env.modeltime.getmaxper - 1 < h) :
    ∃ t1 calls, production env aRegionName aSectorName aPeriod t = some (t1, calls) ∧
      supplyCalls calls
        = [(getFutureMarket aSectorName, aRegionName,
              env.calcSupply aRegionName aSectorName h, aPeriod),
           (t.name, aRegionName, env.calcSupply aRegionName aSectorName aPeriod, aPeriod)] := by
  obtain ⟨t1, calls, hp, -, hs⟩ :=
    production_of_harvestPeriod env aRegionName aSectorName aPeriod t h hh
  exact ⟨t1, calls, hp, hs⟩

/-- C9 (as stated) fails: in the example the last period is 3 and the harvest
period of period 2 is 5, and `production( 2 )` adds the supply of period 5 to
the market "FutureForest". -/
theorem production_future_supply_not_skipped :
    getHarvestPeriod exampleForestEnv.modeltime exampleTech 2 = some 5 ∧
      exampleForestEnv.modeltime.getmaxper - 1 < 5 ∧
      (production exampleForestEnv "USA" "Forest" 2 exampleTech).map
          (fun r => supplyCalls r.2)
        = some [("FutureForest", "USA", QVal.fin 50, 2), ("Forest", "USA", QVal.fin 20, 2)] := by
  refine ⟨rfl, by decide, ?_⟩
  obtain ⟨t1, calls, hp, -, hs⟩ :=
    production_of_harvestPeriod exampleForestEnv "USA" "Forest" 2 exampleTech 5 rfl
  rw [hp, Option.map_some', hs]
  simp only [exampleForestEnv, getFutureMarket, futurePrefix, exampleTech]
  norm_num
  decide

/-- The supply calls of `production( 2 )` in the example, whose harvest period
5 lies after the last period 3. -/
theorem production_adds_future_supply_beyond_horizon_witness :
    ∃ t1 calls, production exampleForestEnv "USA" "Forest" 2 exampleTech = some (t1, calls) ∧
      supplyCalls calls
        = [(getFutureMarket "Forest", "USA", exampleForestEnv.calcSupply "USA" "Forest" 5, 2),
           (exampleTech.name, "USA", exampleForestEnv.calcSupply "USA" "Forest" 2, 2)] :=
  production_adds_future_supply_beyond_horizon exampleForestEnv "USA" "Forest" 2
    exampleTech 5 rfl (by decide)

theorem setCalLandValues_variableCost (mt : Modeltime) (t : ForestProductionTechnology)
    (cal : CalOutcome) (hcal : setCalLandValues mt t = some cal) :
    cal.tech.variableCost = t.variableCost ∧ cal.tech.year = t.year := by
  unfold setCalLandValues at hcal
  cases hd : cDiv t.rotationPeriod (mt.gettimestep (mt.getyr_to_per t.year)) with
  | none => simp [hd] at hcal
  | some steps =>
    simp only [hd] at hcal
    split at hcal <;> (cases hcal; exact ⟨rfl, rfl⟩)

theorem calVarCost_of_fin (env : ForestEnv) (aRegionName : String) (mi : MarketInfo)
    (t : ForestProductionTechnology) (price rate factor yield : ℚ)
    (hprice : mi t.name aRegionName (env.modeltime.getyr_to_per t.year) "calPrice"
      = QVal.fin price)
    (hrate : env.getCalAveObservedRate "UnmanagedLand" (env.modeltime.getyr_to_per t.year)
      = QVal.fin rate)
    (hfactor : calcDiscountFactor t = QVal.fin factor)
    (hyield : t.calObservedYield = QVal.fin yield)
    (hf : factor ≠ 0) (hy : yield ≠ 0) :
    calVarCost env aRegionName mi t = QVal.fin (price - rate / factor / yield) := by
  simp only [calVarCost, hprice, hrate, hfactor, hyield]
  simp [hf, hy]

/-- C10: when `initCalc` takes its calibration branch (after `setCalLandValues`
the observed yield is set, and the year is not the end year of the model), the
technology it leaves has the computed calibration variable cost
`calPrice - profitFactor / calObservedYield` as its variable cost when that is
greater than zero, and the variable cost it had before otherwise. -/
theorem initCalc_variableCost_calibrated (env : ForestEnv)
    (aRegionName aSectorName : String) (aPeriod : Int) (mi : MarketInfo)
    (t : ForestProductionTechnology) (cal : CalOutcome)
    (hcal : setCalLandValues env.modeltime t = some cal)
    (hyield : cal.tech.calObservedYield ≠ QVal.fin (-1))
    (hyear : t.year ≠ env.modeltime.getEndYear) :
    ∃ r, initCalc env aRegionName aSectorName aPeriod mi t = some r ∧
      r.tech.variableCost
        = if QVal.gt (calVarCost env aRegionName mi cal.tech) 0 = true
          then calVarCost env aRegionName mi cal.tech else t.variableCost := by
  obtain ⟨hvc, hy⟩ := setCalLandValues_variableCost env.modeltime t cal hcal
  have hbranch : cal.tech.calObservedYield ≠ QVal.fin (-1) ∧
      cal.tech.year ≠ env.modeltime.getEndYear := ⟨hyield, by rw [hy]; exact hyear⟩
  simp only [initCalc, hcal]
  refine ⟨_, rfl, ?_⟩
  simp only [initCalcBranch, if_pos hbranch]
  by_cases hgt : QVal.gt (calVarCost env aRegionName mi cal.tech) 0 = true
  · rw [if_pos hgt, if_pos hgt]
    by_cases hprod : cal.tech.calProduction ≠ QVal.fin (-1)
    · rw [if_pos hprod]
    · rw [if_neg hprod]
  · rw [if_neg hgt, if_neg hgt]
    by_cases hprod : cal.tech.calProduction ≠ QVal.fin (-1)
    · rw [if_pos hprod]
      exact hvc
    · rw [if_neg hprod]
      exact hvc

/-- In the example the calibration price 1 is too low: the computed variable
cost is negative and the variable cost stays 3. -/
theorem initCalc_variableCost_calibrated_witness :
    ∃ r, initCalc exampleForestEnv "USA" "Forest" 1 exampleMarketInfo exampleTech = some r ∧
      r.tech.variableCost = QVal.fin 3 := by
  have hts : exampleForestEnv.modeltime.gettimestep
      (exampleForestEnv.modeltime.getyr_to_per exampleTech.year) ≠ 0 := by decide
  have hset : exampleTech.calProduction ≠ QVal.fin (-1) ∧
      exampleTech.calYield ≠ QVal.fin (-1) := by
    constructor <;> simp [exampleTech] <;> norm_num
  have hcal := setCalLandValues_of_set exampleForestEnv.modeltime exampleTech hts hset
  have hobs : (calLoopResult exampleForestEnv.modeltime exampleTech).calObservedYield
      = QVal.fin 2 := by
    simp [calLoopResult, exampleForestEnv, exampleModeltime, exampleTech,
      setCalLandValuesLoop, setCalLandValuesBody]
  obtain ⟨r, hr, hv⟩ := initCalc_variableCost_calibrated exampleForestEnv "USA" "Forest" 1
    exampleMarketInfo exampleTech _ hcal (by rw [hobs]; simp; norm_num) (by decide)
  refine ⟨r, hr, ?_⟩
  rw [hv]
  have hdf : calcDiscountFactor exampleTech
      = QVal.fin ((1 / 50) / ((1 + 1 / 50) ^ 45 - 1)) :=
    calcDiscountFactor_of_defined exampleTech (1 / 50) rfl (by decide)
      (by rw [show exampleTech.rotationPeriod.toNat = 45 from rfl]; norm_num)
  have hc := calVarCost_of_fin exampleForestEnv "USA" exampleMarketInfo
    { exampleTech with
      calObservedYield :=
        (calLoopResult exampleForestEnv.modeltime exampleTech).calObservedYield
      calLandUsed := (calLoopResult exampleForestEnv.modeltime exampleTech).calLandUsed }
    1 4 ((1 / 50) / ((1 + 1 / 50) ^ 45 - 1)) 2 rfl rfl hdf hobs (by norm_num) (by norm_num)
  have hneg : QVal.gt (calVarCost exampleForestEnv "USA" exampleMarketInfo
      { exampleTech with
        calObservedYield :=
          (calLoopResult exampleForestEnv.modeltime exampleTech).calObservedYield
        calLandUsed := (calLoopResult exampleForestEnv.modeltime exampleTech).calLandUsed })
      0 = false := by
    rw [hc]
    simp
    norm_num
  simp only [hneg]
  rfl

theorem allocationPeriods_loop (t : ForestProductionTechnology)
    (timestep nRotPeriodSteps period : Int) (n : Nat) (i : Int) (st : CalLoopState) :
    allocationPeriods (setCalLandValuesLoop t timestep nRotPeriodSteps period n i st).calls
      = allocationPeriods st.calls ++ Scenario.periodsFrom i n := by
  induction n generalizing i st with
  | zero => simp [setCalLandValuesLoop, Scenario.periodsFrom]
  | succ n ih =>
    rw [setCalLandValuesLoop, ih, Scenario.periodsFrom]
    simp [setCalLandValuesBody, allocationPeriods, List.filterMap_append]

theorem observedYieldPeriods_loop (t : ForestProductionTechnology)
    (timestep nRotPeriodSteps period : Int) (n : Nat) (i : Int) (st : CalLoopState) :
    observedYieldPeriods
        (setCalLandValuesLoop t timestep nRotPeriodSteps period n i st).calls
      = observedYieldPeriods st.calls ++ Scenario.periodsFrom i n := by
  induction n generalizing i st with
  | zero => simp [setCalLandValuesLoop, Scenario.periodsFrom]
  | succ n ih =>
    rw [setCalLandValuesLoop, ih, Scenario.periodsFrom]
    simp [setCalLandValuesBody, observedYieldPeriods, List.filterMap_append]

theorem completeInit_of_set (env : ForestEnv) (aSectorName : String)
    (t : ForestProductionTechnology)
    (hts : env.modeltime.gettimestep (env.modeltime.getyr_to_per t.year) ≠ 0)
    (hset : t.calProduction ≠ QVal.fin (-1) ∧ t.calYield ≠ QVal.fin (-1)) :
    ∃ o, completeInit env aSectorName t = some o ∧
      allocationPeriods o.calls = allocationPeriods
        (calLoopResult env.modeltime { t with rotationPeriod := env.rotationPeriodInfo }).calls ∧
      observedYieldPeriods o.calls = observedYieldPeriods
        (calLoopResult env.modeltime { t with rotationPeriod := env.rotationPeriodInfo }).calls := by
  have h := setCalLandValues_of_set env.modeltime
    { t with rotationPeriod := env.rotationPeriodInfo } hts hset
  simp only [completeInit, h]
  refine ⟨_, rfl, ?_, ?_⟩
  · by_cases hy : t.year = env.modeltime.getStartYear <;>
      simp [hy, allocationPeriods, List.filterMap_append]
  · by_cases hy : t.year = env.modeltime.getStartYear <;>
      simp [hy, observedYieldPeriods, List.filterMap_append]

/-- C13 (as amended): for a technology with calibrated production and yield set
and a timestep other than zero, `completeInit` hands the land allocator one
calibrated land allocation and one observed yield for each of the periods
`start, start + 1, ..., start + nRotPeriodSteps`, in this order, and for no
other period, where `start` is the period of the year of the technology and
`nRotPeriodSteps` is the rotation period divided by the timestep when a future
production was read in and 0 when it was not. -/
theorem completeInit_calibration_periods (env : ForestEnv) (aSectorName : String)
    (t : ForestProductionTechnology)
    (hts : env.modeltime.gettimestep (env.modeltime.getyr_to_per t.year) ≠ 0)
    (hset : t.calProduction ≠ QVal.fin (-1) ∧ t.calYield ≠ QVal.fin (-1)) :
    ∃ o, completeInit env aSectorName t = some o ∧
      allocationPeriods o.calls
        = (List.range ((if t.futureProduction = QVal.fin (-1) then 0
              else env.rotationPeriodInfo.tdiv
                (env.modeltime.gettimestep (env.modeltime.getyr_to_per t.year))) + 1).toNat).map
            (fun (k : Nat) => env.modeltime.getyr_to_per t.year + (k : Int)) ∧
      observedYieldPeriods o.calls
        = (List.range ((if t.futureProduction = QVal.fin (-1) then 0
              else env.rotationPeriodInfo.tdiv
                (env.modeltime.gettimestep (env.modeltime.getyr_to_per t.year))) + 1).toNat).map
            (fun (k : Nat) => env.modeltime.getyr_to_per t.year + (k : Int)) := by
  obtain ⟨o, ho, ha, hy⟩ := completeInit_of_set env aSectorName t hts hset
  refine ⟨o, ho, ?_, ?_⟩
  · rw [ha, calLoopResult, allocationPeriods_loop, Scenario.periodsFrom_eq_map]
    rfl
  · rw [hy, calLoopResult, observedYieldPeriods_loop, Scenario.periodsFrom_eq_map]
    rfl

/-- C13 (as stated) fails: for the example technology without future production
(start period 1, rotation period 45, timestep 15) the claim has periods 1 to 4,
and `completeInit` hands over a land allocation and a yield for period 1 only. -/
theorem completeInit_without_future_production :
    noFutureTech.calProduction ≠ QVal.fin (-1) ∧ noFutureTech.calYield ≠ QVal.fin (-1) ∧
      exampleModeltime.getyr_to_per noFutureTech.year
        + exampleForestEnv.rotationPeriodInfo.tdiv
            (exampleModeltime.gettimestep (exampleModeltime.getyr_to_per noFutureTech.year)) = 4 ∧
      (completeInit exampleForestEnv "Forest" noFutureTech).map
          (fun o => (allocationPeriods o.calls, observedYieldPeriods o.calls))
        = some ([1], [1]) := by
  have hset : noFutureTech.calProduction ≠ QVal.fin (-1) ∧
      noFutureTech.calYield ≠ QVal.fin (-1) := by
    constructor <;> simp [noFutureTech, exampleTech] <;> norm_num
  refine ⟨hset.1, hset.2, by decide, ?_⟩
  obtain ⟨o, ho, ha, hy⟩ := completeInit_of_set exampleForestEnv "Forest" noFutureTech
    (by decide) hset
  rw [ho, Option.map_some', ha, hy, calLoopResult, allocationPeriods_loop,
    observedYieldPeriods_loop]
  rfl

/-- The example technology with future production 130: land allocations and
yields for periods 1, 2, 3 and 4. -/
theorem completeInit_calibration_periods_witness :
    ∃ o, completeInit exampleForestEnv "Forest" exampleTech = some o ∧
      allocationPeriods o.calls = [1, 2, 3, 4] ∧
      observedYieldPeriods o.calls = [1, 2, 3, 4] := by
  have hset : exampleTech.calProduction ≠ QVal.fin (-1) ∧
      exampleTech.calYield ≠ QVal.fin (-1) := by
    constructor <;> simp [exampleTech] <;> norm_num
  have hfp : ¬ exampleTech.futureProduction = QVal.fin (-1) := by
    simp [exampleTech]
    norm_num
  obtain ⟨o, ho, ha, hy⟩ := completeInit_calibration_periods exampleForestEnv "Forest"
    exampleTech (by decide) hset
  rw [if_neg hfp] at ha hy
  exact ⟨o, ho, ha, hy⟩

theorem setCalLandValues_name (mt : Modeltime) (t : ForestProductionTechnology)
    (cal : CalOutcome) (hcal : setCalLandValues mt t = some cal) :
    cal.tech.name = t.name ∧ cal.tech.year = t.year := by
  unfold setCalLandValues at hcal
  cases hd : cDiv t.rotationPeriod (mt.gettimestep (mt.getyr_to_per t.year)) with
  | none => simp [hd] at hcal
  | some steps =>
    simp only [hd] at hcal
    split at hcal <;> (cases hcal; exact ⟨rfl, rfl⟩)

theorem setDouble_same (mi : MarketInfo) (good region : String) (period : Int)
    (key : String) (value : QVal) :
    mi.setDouble good region period key value good region period key = value := by
  simp [MarketInfo.setDouble]

theorem setDouble_other_key (mi : MarketInfo) (good region : String) (period : Int)
    (key : String) (value : QVal) (g r : String) (p : Int) (k : String) (hk : k ≠ key) :
    mi.setDouble good region period key value g r p k = mi g r p k := by
  simp [MarketInfo.setDouble, hk]

theorem initCalcBranch_calVarCost (env : ForestEnv) (aRegionName aSectorName : String)
    (mi : MarketInfo) (t : ForestProductionTechnology)
    (hbranch : t.calObservedYield ≠ QVal.fin (-1) ∧ t.year ≠ env.modeltime.getEndYear) :
    (initCalcBranch env aRegionName aSectorName mi t).marketInfo t.name aRegionName
        (env.modeltime.getyr_to_per t.year + 1) "calVarCost"
      = calVarCost env aRegionName mi t := by
  have hkey : "calVarCost" ≠ "calSupply" := by decide
  simp only [initCalcBranch, if_pos hbranch]
  by_cases hgt : QVal.gt (calVarCost env aRegionName mi t) 0 = true
  · rw [if_pos hgt]
    by_cases hprod : t.calProduction ≠ QVal.fin (-1)
    · rw [if_pos hprod]
      simp only []
      rw [setDouble_other_key _ _ _ _ _ _ _ _ _ _ hkey, setDouble_same]
    · rw [if_neg hprod]
      exact setDouble_same _ _ _ _ _ _
  · rw [if_neg hgt]
    by_cases hprod : t.calProduction ≠ QVal.fin (-1)
    · rw [if_pos hprod]
      simp only []
      rw [setDouble_other_key _ _ _ _ _ _ _ _ _ _ hkey, setDouble_same]
    · rw [if_neg hprod]
      exact setDouble_same _ _ _ _ _ _

theorem initCalcBranch_log (env : ForestEnv) (aRegionName aSectorName : String)
    (mi : MarketInfo) (t : ForestProductionTechnology)
    (hbranch : t.calObservedYield ≠ QVal.fin (-1) ∧ t.year ≠ env.modeltime.getEndYear)
    (hnot : QVal.gt (calVarCost env aRegionName mi t) 0 = false) :
    (initCalcBranch env aRegionName aSectorName mi t).calls
      = [FCall.logCalPriceTooLow aRegionName t.name (0 - calVarCost env aRegionName mi t)] := by
  have hgt : ¬ QVal.gt (calVarCost env aRegionName mi t) 0 = true := by
    rw [hnot]; decide
  simp only [initCalcBranch, if_pos hbranch]
  rw [if_neg hgt]
  by_cases hprod : t.calProduction ≠ QVal.fin (-1)
  · rw [if_pos hprod]
  · rw [if_neg hprod]

/-- C14: when `initCalc` takes its calibration branch, the market info it
leaves holds, under the key "calVarCost" of the technology's market for the
period after that of the technology's year, the computed calibration variable
cost, whether or not that is greater than zero; and when it is not, the value
is stored after the line of the main log that reports the price as too low. -/
theorem initCalc_stores_calVarCost (env : ForestEnv)
    (aRegionName aSectorName : String) (aPeriod : Int) (mi : MarketInfo)
    (t : ForestProductionTechnology) (cal : CalOutcome)
    (hcal : setCalLandValues env.modeltime t = some cal)
    (hyield : cal.tech.calObservedYield ≠ QVal.fin (-1))
    (hyear : t.year ≠ env.modeltime.getEndYear) :
    ∃ r, initCalc env aRegionName aSectorName aPeriod mi t = some r ∧
      r.marketInfo t.name aRegionName (env.modeltime.getyr_to_per t.year + 1) "calVarCost"
        = calVarCost env aRegionName mi cal.tech ∧
      (QVal.gt (calVarCost env aRegionName mi cal.tech) 0 = false →
        FCall.logCalPriceTooLow aRegionName t.name
          (0 - calVarCost env aRegionName mi cal.tech) ∈ r.calls) := by
  obtain ⟨hname, hy⟩ := setCalLandValues_name env.modeltime t cal hcal
  have hbranch : cal.tech.calObservedYield ≠ QVal.fin (-1) ∧
      cal.tech.year ≠ env.modeltime.getEndYear := ⟨hyield, by rw [hy]; exact hyear⟩
  simp only [initCalc, hcal]
  refine ⟨_, rfl, ?_, ?_⟩
  · have h := initCalcBranch_calVarCost env aRegionName aSectorName mi cal.tech hbranch
    rw [hname, hy] at h
    exact h
  · intro hnot
    have h := initCalcBranch_log env aRegionName aSectorName mi cal.tech hbranch hnot
    simp only [h, hname]
    simp

theorem exampleTech_calibration :
    ∃ cal, setCalLandValues exampleForestEnv.modeltime exampleTech = some cal ∧
      cal.tech.calObservedYield = QVal.fin 2 ∧
      calVarCost exampleForestEnv "USA" exampleMarketInfo cal.tech
        = QVal.fin (1 - 4 / ((1 / 50) / ((1 + 1 / 50) ^ 45 - 1)) / 2) := by
  have hts : exampleForestEnv.modeltime.gettimestep
      (exampleForestEnv.modeltime.getyr_to_per exampleTech.year) ≠ 0 := by decide
  have hset : exampleTech.calProduction ≠ QVal.fin (-1) ∧
      exampleTech.calYield ≠ QVal.fin (-1) := by
    constructor <;> simp [exampleTech] <;> norm_num
  have hobs : (calLoopResult exampleForestEnv.modeltime exampleTech).calObservedYield
      = QVal.fin 2 := by
    simp [calLoopResult, exampleForestEnv, exampleModeltime, exampleTech,
      setCalLandValuesLoop, setCalLandValuesBody]
  have hdf : calcDiscountFactor exampleTech
      = QVal.fin ((1 / 50) / ((1 + 1 / 50) ^ 45 - 1)) :=
    calcDiscountFactor_of_defined exampleTech (1 / 50) rfl (by decide)
      (by rw [show exampleTech.rotationPeriod.toNat = 45 from rfl]; norm_num)
  refine ⟨_, setCalLandValues_of_set exampleForestEnv.modeltime exampleTech hts hset,
    hobs, ?_⟩
  exact calVarCost_of_fin exampleForestEnv "USA" exampleMarketInfo
    { exampleTech with
      calObservedYield :=
        (calLoopResult exampleForestEnv.modeltime exampleTech).calObservedYield
      calLandUsed := (calLoopResult exampleForestEnv.modeltime exampleTech).calLandUsed }
    1 4 ((1 / 50) / ((1 + 1 / 50) ^ 45 - 1)) 2 rfl rfl hdf hobs (by norm_num) (by norm_num)

/-- In the example the computed calibration variable cost is negative, and it
is what the market info holds for period 2 after `initCalc`. -/
theorem initCalc_stores_calVarCost_witness :
    ∃ r, initCalc exampleForestEnv "USA" "Forest" 1 exampleMarketInfo exampleTech = some r ∧
      r.marketInfo "Forest" "USA" 2 "calVarCost"
        = QVal.fin (1 - 4 / ((1 / 50) / ((1 + 1 / 50) ^ 45 - 1)) / 2) ∧
      QVal.gt (QVal.fin (1 - 4 / ((1 / 50) / ((1 + 1 / 50) ^ 45 - 1)) / 2)) 0 = false := by
  obtain ⟨cal, hcal, hobs, hc⟩ := exampleTech_calibration
  obtain ⟨r, hr, hstore, -⟩ := initCalc_stores_calVarCost exampleForestEnv "USA" "Forest" 1
    exampleMarketInfo exampleTech cal hcal (by rw [hobs]; simp; norm_num) (by decide)
  rw [hc] at hstore
  refine ⟨r, hr, hstore, ?_⟩
  simp
  norm_num

/-- C15: with a timestep other than zero, `production( p )` makes two
`addToSupply` calls and no more, both for period `p`: first the supply of the
harvest period `getHarvestPeriod( p )` to the market "Future" + sector name,
then the supply of period `p` to the market named as the technology; and the
second amount is the output that the technology keeps. -/
theorem production_two_supplies (env : ForestEnv) (aRegionName aSectorName : String)
    (aPeriod : Int) (t : ForestProductionTechnology)
    (hts : env.modeltime.gettimestep (env.modeltime.getyr_to_per t.year) ≠ 0) :
    ∃ h t1 calls, getHarvestPeriod env.modeltime t aPeriod = some h ∧
      production env aRegionName aSectorName aPeriod t = some (t1, calls) ∧
      supplyCalls calls
        = [("Future" ++ aSectorName, aRegionName,
              env.calcSupply aRegionName aSectorName h, aPeriod),
           (t.name, aRegionName, env.calcSupply aRegionName aSectorName aPeriod, aPeriod)] ∧
      t1.output = env.calcSupply aRegionName aSectorName aPeriod := by
  have hh : getHarvestPeriod env.modeltime t aPeriod
      = some (aPeriod + t.rotationPeriod.tdiv
          (env.modeltime.gettimestep (env.modeltime.getyr_to_per t.year))) := by
    simp only [getHarvestPeriod, cDiv_of_ne_zero _ _ hts]
  obtain ⟨t1, calls, hp, hout, hs⟩ :=
    production_of_harvestPeriod env aRegionName aSectorName aPeriod t _ hh
  exact ⟨_, t1, calls, hh, hp, hs, hout⟩

/-- In period 1 of the example the harvest period is 4: a supply of 40 goes to
"FutureForest" and a supply of 10, the output, to "Forest". -/
theorem production_two_supplies_witness :
    ∃ t1 calls, production exampleForestEnv "USA" "Forest" 1 exampleTech = some (t1, calls) ∧
      supplyCalls calls
        = [("FutureForest", "USA", QVal.fin 40, 1), ("Forest", "USA", QVal.fin 10, 1)] ∧
      t1.output = QVal.fin 10 := by
  obtain ⟨h, t1, calls, hh, hp, hs, hout⟩ :=
    production_two_supplies exampleForestEnv "USA" "Forest" 1 exampleTech (by decide)
  have h4 : h = 4 := by
    have : getHarvestPeriod exampleForestEnv.modeltime exampleTech 1 = some 4 := rfl
    rw [this] at hh
    exact (Option.some.inj hh).symm
  subst h4
  refine ⟨t1, calls, hp, ?_, ?_⟩
  · rw [hs]
    simp only [exampleForestEnv, exampleTech]
    norm_num
    decide
  · rw [hout]
    simp only [exampleForestEnv]
    norm_num

theorem stepDivisors_loop_mem (t : ForestProductionTechnology)
    (timestep nRotPeriodSteps period : Int) (n : Nat) (i : Int) (st : CalLoopState) :
    ∀ d ∈ (setCalLandValuesLoop t timestep nRotPeriodSteps period n i st).stepDivisors,
      d ∈ st.stepDivisors ∨ d = nRotPeriodSteps := by
  induction n generalizing i st with
  | zero => intro d hd; exact Or.inl hd
  | succ n ih =>
    intro d hd
    rw [setCalLandValuesLoop] at hd
    rcases ih _ _ d hd with h | h
    · simp only [setCalLandValuesBody] at h
      by_cases hi : i > period
      · rw [if_pos hi, List.mem_append, List.mem_singleton] at h
        exact h
      · rw [if_neg hi] at h
        exact Or.inl h
    · exact Or.inr h

theorem stepDivisors_loop_short (t : ForestProductionTechnology)
    (timestep nRotPeriodSteps period : Int) (n : Nat) (hn : n ≤ 1) (st : CalLoopState) :
    (setCalLandValuesLoop t timestep nRotPeriodSteps period n period st).stepDivisors
      = st.stepDivisors := by
  have hcases : n = 0 ∨ n = 1 := by omega
  rcases hcases with h | h
  · subst h; rfl
  · subst h
    simp [setCalLandValuesLoop, setCalLandValuesBody]

theorem stepDivisors_calLoopResult (mt : Modeltime) (t : ForestProductionTechnology) :
    (∀ d ∈ (calLoopResult mt t).stepDivisors, d ≠ 0) ∧
      ((if t.futureProduction = QVal.fin (-1) then 0
          else t.rotationPeriod.tdiv (mt.gettimestep (mt.getyr_to_per t.year))) ≤ 0 →
        (calLoopResult mt t).stepDivisors = []) := by
  have hshort : (if t.futureProduction = QVal.fin (-1) then 0
        else t.rotationPeriod.tdiv (mt.gettimestep (mt.getyr_to_per t.year))) ≤ 0 →
      (calLoopResult mt t).stepDivisors = [] := by
    intro hle
    rw [calLoopResult]
    exact stepDivisors_loop_short t _ _ _ _ (by omega) _
  refine ⟨?_, hshort⟩
  intro d hd
  by_cases hle : (if t.futureProduction = QVal.fin (-1) then 0
      else t.rotationPeriod.tdiv (mt.gettimestep (mt.getyr_to_per t.year))) ≤ 0
  · rw [hshort hle] at hd
    exact absurd hd (List.not_mem_nil _)
  · rw [calLoopResult] at hd
    rcases stepDivisors_loop_mem t _ _ _ _ _ _ d hd with h | h
    · exact absurd h (List.not_mem_nil _)
    · rw [h]
      omega

theorem tdiv_nonpos_of_lt (a b : Int) (hb : 0 < b) (hab : a < b) : a.tdiv b ≤ 0 := by
  by_cases ha : 0 ≤ a
  · rw [Int.tdiv_eq_zero_of_lt ha hab]
  · have h := Int.tdiv_nonneg (show 0 ≤ -a by omega) (le_of_lt hb)
    rw [Int.neg_tdiv] at h
    omega

/-- C16: with a timestep other than zero `setCalLandValues` returns, and none of
the values of `nRotPeriodSteps` by which its loop divided is zero. The loop does
not divide at all when no future production was read in, when the rotation
period divided by the timestep is not positive, and so when the timestep is
positive and the rotation period is less than it (or negative). -/
theorem setCalLandValues_divisor_ne_zero (mt : Modeltime) (t : ForestProductionTechnology)
    (hts : mt.gettimestep (mt.getyr_to_per t.year) ≠ 0) :
    ∃ o, setCalLandValues mt t = some o ∧
      (∀ d ∈ o.stepDivisors, d ≠ 0) ∧
      (t.futureProduction = QVal.fin (-1) → o.stepDivisors = []) ∧
      (t.rotationPeriod.tdiv (mt.gettimestep (mt.getyr_to_per t.year)) ≤ 0 →
        o.stepDivisors = []) ∧
      (0 < mt.gettimestep (mt.getyr_to_per t.year) →
        t.rotationPeriod < mt.gettimestep (mt.getyr_to_per t.year) →
        o.stepDivisors = []) := by
  by_cases hc : t.calProduction ≠ QVal.fin (-1) ∧ t.calYield ≠ QVal.fin (-1)
  · obtain ⟨hne, hshort⟩ := stepDivisors_calLoopResult mt t
    refine ⟨_, setCalLandValues_of_set mt t hts hc, hne, ?_, ?_, ?_⟩
    · intro hfp
      exact hshort (by rw [if_pos hfp])
    · intro hle
      apply hshort
      by_cases hfp : t.futureProduction = QVal.fin (-1)
      · rw [if_pos hfp]
      · rw [if_neg hfp]; exact hle
    · intro hpos hlt
      apply hshort
      by_cases hfp : t.futureProduction = QVal.fin (-1)
      · rw [if_pos hfp]
      · rw [if_neg hfp]; exact tdiv_nonpos_of_lt _ _ hpos hlt
  · exact ⟨_, setCalLandValues_of_unset mt t hts hc,
      fun d hd => absurd hd (List.not_mem_nil _), fun _ => rfl, fun _ => rfl,
      fun _ _ => rfl⟩

/-- The example technology: its loop divides three times, by 3. -/
theorem setCalLandValues_divisor_ne_zero_witness :
    ∃ o, setCalLandValues exampleModeltime exampleTech = some o ∧
      o.stepDivisors = [3, 3, 3] ∧ ∀ d ∈ o.stepDivisors, d ≠ 0 := by
  obtain ⟨o, ho, hne, -⟩ :=
    setCalLandValues_divisor_ne_zero exampleModeltime exampleTech (by decide)
  refine ⟨o, ho, ?_, hne⟩
  have hset : exampleTech.calProduction ≠ QVal.fin (-1) ∧
      exampleTech.calYield ≠ QVal.fin (-1) := by
    constructor <;> simp [exampleTech] <;> norm_num
  rw [setCalLandValues_of_set exampleModeltime exampleTech (by decide) hset] at ho
  cases ho
  simp [calLoopResult, exampleModeltime, exampleTech, setCalLandValuesLoop,
    setCalLandValuesBody]
  decide

theorem calls_loop_interpolated (t : ForestProductionTechnology)
    (timestep n period : Int) (cp fp : ℚ) (hn : n ≠ 0)
    (hcp : t.calProduction = QVal.fin cp) (hfp : t.futureProduction = QVal.fin fp)
    (m k : Nat) (st : CalLoopState)
    (hst : st.calProductionTemp = QVal.fin (cp + k * (fp - cp) / n)) :
    (setCalLandValuesLoop t timestep n period m (period + ((k + 1 : Nat) : Int)) st).calls
      = st.calls ++ (List.range m).flatMap
          (fun j => interpolatedRecords t timestep n period cp fp (k + 1 + j)) := by
  induction m generalizing k st with
  | zero => simp [setCalLandValuesLoop]
  | succ m ih =>
    have hgt : period + ((k + 1 : Nat) : Int) > period := by push_cast; omega
    have hnq : (n : ℚ) ≠ 0 := by exact_mod_cast hn
    have hnext : period + ((k + 1 : Nat) : Int) + 1 = period + ((k + 1 + 1 : Nat) : Int) := by
      push_cast; ring
    have htemp : (setCalLandValuesBody t timestep n period
        (period + ((k + 1 : Nat) : Int)) st).calProductionTemp
        = QVal.fin (cp + ((k + 1 : Nat) : ℚ) * (fp - cp) / n) := by
      simp only [setCalLandValuesBody, if_pos hgt, hst, hfp, hcp]
      simp only [QVal.ofInt_eq_fin, QVal.fin_sub_fin, QVal.fin_div_fin, if_neg hnq,
        QVal.fin_add_fin]
      congr 1
      push_cast
      ring
    have hcalls : (setCalLandValuesBody t timestep n period
        (period + ((k + 1 : Nat) : Int)) st).calls
        = st.calls ++ interpolatedRecords t timestep n period cp fp (k + 1) := by
      have h2 := htemp
      simp only [setCalLandValuesBody, if_pos hgt] at h2 ⊢
      rw [h2]
      simp only [interpolatedRecords, calYieldAt, if_pos hgt]
    rw [setCalLandValuesLoop, hnext, ih (k + 1) _ htemp, hcalls, List.range_succ_eq_map,
      List.flatMap_cons, List.flatMap_map, List.append_assoc]
    congr 2
    apply List.flatMap_congr
    intro j _
    simp only [Function.comp_apply, Nat.succ_eq_add_one]
    congr 1
    omega

theorem calls_calLoopResult_interpolated (mt : Modeltime) (t : ForestProductionTechnology)
    (cp fp : ℚ)
    (hn : 1 ≤ t.rotationPeriod.tdiv (mt.gettimestep (mt.getyr_to_per t.year)))
    (hcp : t.calProduction = QVal.fin cp)
    (hfp : t.futureProduction = QVal.fin fp) (hfp1 : fp ≠ -1) :
    (calLoopResult mt t).calls
      = (List.range
          ((t.rotationPeriod.tdiv (mt.gettimestep (mt.getyr_to_per t.year))).toNat + 1)).flatMap
          (interpolatedRecords t (mt.gettimestep (mt.getyr_to_per t.year))
            (t.rotationPeriod.tdiv (mt.gettimestep (mt.getyr_to_per t.year)))
            (mt.getyr_to_per t.year) cp fp) := by
  have hne : ¬ t.futureProduction = QVal.fin (-1) := by
    rw [hfp]
    intro h
    exact hfp1 (QVal.fin.inj h)
  have hcount : (t.rotationPeriod.tdiv (mt.gettimestep (mt.getyr_to_per t.year)) + 1).toNat
      = (t.rotationPeriod.tdiv (mt.gettimestep (mt.getyr_to_per t.year))).toNat + 1 := by
    omega
  have hle : ¬ mt.getyr_to_per t.year > mt.getyr_to_per t.year := by omega
  have h := calls_loop_interpolated t (mt.gettimestep (mt.getyr_to_per t.year))
    (t.rotationPeriod.tdiv (mt.gettimestep (mt.getyr_to_per t.year)))
    (mt.getyr_to_per t.year) cp fp (by omega) hcp hfp
    (t.rotationPeriod.tdiv (mt.gettimestep (mt.getyr_to_per t.year))).toNat 0
    (setCalLandValuesBody t (mt.gettimestep (mt.getyr_to_per t.year))
      (t.rotationPeriod.tdiv (mt.gettimestep (mt.getyr_to_per t.year)))
      (mt.getyr_to_per t.year) (mt.getyr_to_per t.year)
      { calProductionTemp := t.calProduction
        calYieldTemp := t.calYield
        calLandUsed := t.calLandUsed
        calObservedYield := 0
        calls := []
        stepDivisors := [] })
    (by simp [setCalLandValuesBody, hcp])
  simp only [calLoopResult, if_neg hne, hcount, setCalLandValuesLoop]
  have hone : mt.getyr_to_per t.year + 1 = mt.getyr_to_per t.year + ((0 + 1 : Nat) : Int) := by
    push_cast; ring
  rw [hone, h, List.range_succ_eq_map, List.flatMap_cons, List.flatMap_map]
  congr 1
  · simp [setCalLandValuesBody, interpolatedRecords, calYieldAt, hcp]
  · apply List.flatMap_congr
    intro j _
    simp only [Function.comp_apply, Nat.succ_eq_add_one]
    congr 1
    omega

/-- C17: with a timestep other than zero, `rotationPeriod / timestep` at least
1, and calibrated production, calibrated yield and future production set to
rational numbers, the calls `setCalLandValues` makes on the land allocator are,
for `k` from 0 to `nRotPeriodSteps` in this order, the land allocation and the
observed yield of period `start + k`, where the land allocation is the
production `calProduction + k * (futureProduction - calProduction) /
nRotPeriodSteps` divided by the yield used for that period. That production is
`calProduction` at `k = 0` and `futureProduction` at `k = nRotPeriodSteps`. -/
theorem setCalLandValues_interpolates (mt : Modeltime) (t : ForestProductionTechnology)
    (cp cy fp : ℚ)
    (hts : mt.gettimestep (mt.getyr_to_per t.year) ≠ 0)
    (hn : 1 ≤ t.rotationPeriod.tdiv (mt.gettimestep (mt.getyr_to_per t.year)))
    (hcp : t.calProduction = QVal.fin cp) (hcp1 : cp ≠ -1)
    (hcy : t.calYield = QVal.fin cy) (hcy1 : cy ≠ -1)
    (hfp : t.futureProduction = QVal.fin fp) (hfp1 : fp ≠ -1) :
    ∃ o, setCalLandValues mt t = some o ∧
      o.calls
        = (List.range
            ((t.rotationPeriod.tdiv (mt.gettimestep (mt.getyr_to_per t.year))).toNat
              + 1)).flatMap
            (interpolatedRecords t (mt.gettimestep (mt.getyr_to_per t.year))
              (t.rotationPeriod.tdiv (mt.gettimestep (mt.getyr_to_per t.year)))
              (mt.getyr_to_per t.year) cp fp) ∧
      cp + ((0 : Nat) : ℚ) * (fp - cp)
          / (t.rotationPeriod.tdiv (mt.gettimestep (mt.getyr_to_per t.year)) : Int) = cp ∧
      cp + (((t.rotationPeriod.tdiv (mt.gettimestep (mt.getyr_to_per t.year))).toNat : Nat) : ℚ)
          * (fp - cp)
          / (t.rotationPeriod.tdiv (mt.gettimestep (mt.getyr_to_per t.year)) : Int) = fp := by
  have hset : t.calProduction ≠ QVal.fin (-1) ∧ t.calYield ≠ QVal.fin (-1) := by
    rw [hcp, hcy]
    exact ⟨fun h => hcp1 (QVal.fin.inj h), fun h => hcy1 (QVal.fin.inj h)⟩
  refine ⟨_, setCalLandValues_of_set mt t hts hset,
    calls_calLoopResult_interpolated mt t cp fp hn hcp hfp hfp1, by simp, ?_⟩
  have hcast : (((t.rotationPeriod.tdiv (mt.gettimestep (mt.getyr_to_per t.year))).toNat
      : Nat) : ℚ)
      = ((t.rotationPeriod.tdiv (mt.gettimestep (mt.getyr_to_per t.year)) : Int) : ℚ) := by
    have h : (((t.rotationPeriod.tdiv (mt.gettimestep (mt.getyr_to_per t.year))).toNat
        : Nat) : Int)
        = t.rotationPeriod.tdiv (mt.gettimestep (mt.getyr_to_per t.year)) := by omega
    exact_mod_cast h
  have hnq : ((t.rotationPeriod.tdiv (mt.gettimestep (mt.getyr_to_per t.year)) : Int) : ℚ)
      ≠ 0 := by
    have : t.rotationPeriod.tdiv (mt.gettimestep (mt.getyr_to_per t.year)) ≠ 0 := by omega
    exact_mod_cast this
  rw [hcast]
  field_simp

/-- The example technology, with production 100 now and 130 three periods on
and a yield of 2: land allocations of 50, 55, 60 and 65 for periods 1 to 4. -/
theorem setCalLandValues_interpolates_witness :
    ∃ o, setCalLandValues exampleModeltime exampleTech = some o ∧
      o.calls
        = [FCall.setCalLandAllocation "ForestLand" "Forest" (QVal.fin 50) 1 1,
           FCall.setCalObservedYield "ForestLand" "Forest" (QVal.fin 2) 1,
           FCall.setCalLandAllocation "ForestLand" "Forest" (QVal.fin 55) 2 1,
           FCall.setCalObservedYield "ForestLand" "Forest" (QVal.fin 2) 2,
           FCall.setCalLandAllocation "ForestLand" "Forest" (QVal.fin 60) 3 1,
           FCall.setCalObservedYield "ForestLand" "Forest" (QVal.fin 2) 3,
           FCall.setCalLandAllocation "ForestLand" "Forest" (QVal.fin 65) 4 1,
           FCall.setCalObservedYield "ForestLand" "Forest" (QVal.fin 2) 4] := by
  obtain ⟨o, ho, hcalls, -, -⟩ := setCalLandValues_interpolates exampleModeltime exampleTech
    100 2 130 (by decide) (by decide) rfl (by norm_num) rfl (by norm_num) rfl (by norm_num)
  refine ⟨o, ho, ?_⟩
  rw [hcalls]
  have h4 : (exampleTech.rotationPeriod.tdiv (exampleModeltime.gettimestep
      (exampleModeltime.getyr_to_per exampleTech.year))).toNat + 1 = 4 := by decide
  have h3 : exampleTech.rotationPeriod.tdiv (exampleModeltime.gettimestep
      (exampleModeltime.getyr_to_per exampleTech.year)) = 3 := by decide
  have h1 : exampleModeltime.getyr_to_per exampleTech.year = 1 := by decide
  have h15 : exampleModeltime.gettimestep 1 = 15 := rfl
  rw [h4, h3, h1, h15]
  simp [List.range_succ, interpolatedRecords, calYieldAt, exampleTech, QVal.pow]
  norm_num

end ForestProductionTechnology
